import Mathlib

/-!
smartvmi: interrupt events, process-lifecycle supervision and the session loop

A shallow embedding of

* `vmicore/src/vmi/InterruptEvent.cpp` (X86_64 build),
* `vmicore/src/os/linux/SystemEventSupervisor.cpp` (X86_64 build),
* `vmicore/src/VmiHub.cpp` (without TRACE_MODE),

as state-passing functions. Every call that leaves the translated code (driver,
logger, event stream, single-step supervisor, plugin system, user callbacks) is
recorded, in order, in a trace kept in the state.
-/

namespace SmartVmi

/-! ## Guest memory as seen through the driver -/

/-- Guest-physical addresses: `addr_t` is `uint64_t`. -/
abbrev addr_t := Nat

/-- Guest-physical memory, one cell per address. -/
abbrev Mem := addr_t → Nat

/-- Driver call `read8PA`: the `uint8_t` stored at a physical address. -/
def read8PA (m : Mem) (a : addr_t) : Nat := m a % 256

/-- Driver call `write8PA`: stores a `uint8_t` at a physical address. -/
def write8PA (m : Mem) (a : addr_t) (v : Nat) : Mem :=
  fun x => if x = a then v % 256 else m x

/-- Constants that the translated files take from headers which are not part of
the sources: the `uint8_t` macro `INT3_BREAKPOINT` (InterruptEvent.h),
`PagingDefinitions::numberOfPageIndexBits` (os/PagingDefinitions.h) and the two
values `DONT_REINJECT_INTERRUPT` and `REINJECT_INTERRUPT` of the driver's
`reinject` field. They are parameters of the development. -/
structure BuildConstants where
  INT3_BREAKPOINT : Nat
  INT3_BREAKPOINT_is_uint8 : INT3_BREAKPOINT < 256
  numberOfPageIndexBits : Nat
  DONT_REINJECT_INTERRUPT : Int
  REINJECT_INTERRUPT : Int

/-- The usual x86-64 values: opcode 0xCC, 4 KiB pages, reinject flags 0 and 1. -/
def x86Constants : BuildConstants :=
  ⟨0xCC, by decide, 12, 0, 1⟩

/-! ## Values exchanged with user callbacks and with the driver -/

/-- Modelled from the spec: the continuation decision of a user callback
(`InterruptEvent::InterruptResponse`, declared in InterruptEvent.h, which is not
among the sources). The sources name only `Continue`; every other enumerator is
`Other tag`. -/
inductive InterruptResponse
  | Continue
  | Other (tag : Nat)
  deriving DecidableEq, Repr

/-- What a C++ callback can throw, by the handlers that the translated code
installs: `catch (const std::runtime_error&)` matches `runtime_error` only,
`catch (const std::exception&)` matches `runtime_error` and `exception`, and
neither matches `foreign` (an object whose type does not derive from
`std::exception`). -/
inductive CppException
  | runtime_error (what : String)
  | exception (what : String)
  | foreign
  deriving DecidableEq, Repr

/-- The domain error thrown by `storeOriginalValue` and `setupVmiInterruptEvent`. -/
structure VmiException where
  what : String
  deriving DecidableEq, Repr

/-- The register slot the translated code reads (`x86.rdi`). -/
structure registers_t where
  rdi : Nat
  deriving DecidableEq, Repr

/-- The fields of the driver's `vmi_event_t` that the trap handler reads or
writes; `reinject` is the in-out field `interrupt_event.reinject`. -/
structure vmi_event_t where
  gfn : addr_t
  offset : addr_t
  vcpu_id : Nat
  reinject : Int
  insn_length : Nat
  x86_regs : registers_t
  deriving DecidableEq, Repr

/-- The driver's event response; the trap path only ever returns
`VMI_EVENT_RESPONSE_NONE`. -/
inductive event_response_t
  | VMI_EVENT_RESPONSE_NONE
  deriving DecidableEq, Repr

/-- An `InterruptEvent*`: the identity of an Interrupt Event object. -/
abbrev EventId := Nat

/-- A user callback `std::function<InterruptResponse(InterruptEvent&)>`: it sees
the trap registers (`getRegisters()`), may read and write guest memory and its
own state `σ`, and returns a decision or throws. -/
abbrev Callback (σ : Type) :=
  registers_t → Mem → σ → Except CppException InterruptResponse × Mem × σ

/-- The data members of an `InterruptEvent` object used by the translated code. -/
structure InterruptEvent (σ : Type) where
  targetPA : addr_t
  targetPAString : String
  originalValue : Nat
  hasInterruptGuard : Bool
  callbackFunction : Callback σ

/-- Severity of a logger call. -/
inductive LogLevel
  | debug
  | info
  | warning
  | error
  deriving DecidableEq, Repr

/-- Every call that leaves the translated code, as it appears in the trace. -/
inductive Effect
  | pauseVm
  | resumeVm
  | areEventsPending
  | registerEvent
  | clearEvent
  | flushV2PCache
  | flushPageCache
  | read8PA (a : addr_t)
  | write8PA (a : addr_t) (v : Nat)
  | log (level : LogLevel) (message : String)
  | userCallback (event : EventId)
  | setSingleStepCallback (vcpuId : Nat) (event : EventId)
  | sendErrorEvent (what : String)
  | guardTeardown (event : EventId)
  deriving DecidableEq, Repr

/-! ## The dispatch table `std::map<addr_t, InterruptEvent*>` -/

/-- The table as the list of its entries in key order. -/
abbrev PAMap := List (addr_t × EventId)

/-- `std::map::find`: the value stored under a key, if any. -/
def PAMap.find : PAMap → addr_t → Option EventId
  | [], _ => none
  | (k, v) :: rest, a => if a = k then some v else PAMap.find rest a

/-- `operator[]` followed by assignment: stores a value under a key, keeping key order. -/
def PAMap.insert : PAMap → addr_t → EventId → PAMap
  | [], a, e => [(a, e)]
  | (k, v) :: rest, a, e =>
    if a < k then (a, e) :: (k, v) :: rest
    else if a = k then (a, e) :: rest
    else (k, v) :: PAMap.insert rest a e

/-- `std::map::erase(key)`. -/
def PAMap.erase (m : PAMap) (a : addr_t) : PAMap :=
  m.filter (fun kv => decide (kv.1 ≠ a))

/-- The keys of the table, in iteration order. -/
def PAMap.keys (m : PAMap) : List addr_t := m.map Prod.fst

/-- Well-formedness of a `std::map`: keys strictly increasing, hence distinct. -/
def PAMap.WF (m : PAMap) : Prop := (PAMap.keys m).Pairwise (fun a b => a < b)

/-! ## State -/

/-- The state the interrupt machinery works on: guest memory, the process-wide
dispatch table `interruptsByPA`, the Interrupt Event objects, the single-step
supervisor's registry, `GlobalControl::endVmi`, what the driver answers to
`areEventsPending`, the state of the user callbacks, and the trace. -/
structure State (σ : Type) where
  mem : Mem
  interruptsByPA : PAMap
  heap : EventId → InterruptEvent σ
  singleStepCallbacks : Nat → Option EventId
  endVmi : Bool
  eventsPending : Bool
  user : σ
  trace : List Effect

/-- Appends one effect to the trace. -/
def State.emit {σ : Type} (st : State σ) (e : Effect) : State σ :=
  { st with trace := st.trace ++ [e] }

/-- Replaces the object behind an `InterruptEvent*`. -/
def State.setObject {σ : Type} (st : State σ) (this : EventId) (ev : InterruptEvent σ) :
    State σ :=
  { st with heap := fun i => if i = this then ev else st.heap i }

/-- `fmt::format("{:#x}", n)`. -/
def formatHex (n : Nat) : String := "0x" ++ String.mk (Nat.toDigits 16 n)

/-- Modelled from the spec: `SingleStepSupervisor::setSingleStepCallback`
(SingleStepSupervisor.cpp is not among the sources). It records the callback for
that virtual CPU; a callback already pending for the CPU is replaced. The
callback is `singleStepCallbackFunction`, bound to the event `this`. -/
def setSingleStepCallback {σ : Type} (vcpuId : Nat) (this : EventId) (st : State σ) :
    State σ :=
  { st.emit (.setSingleStepCallback vcpuId this) with
    singleStepCallbacks := fun v => if v = vcpuId then some this else st.singleStepCallbacks v }

/-! ## InterruptEvent.cpp -/

section InterruptEventCpp

variable {σ : Type}

/-- `InterruptEvent::enableEvent`, X86_64. -/
def enableEvent (k : BuildConstants) (this : EventId) (st : State σ) : State σ :=
  let targetPA := (st.heap this).targetPA
  let st := { st.emit (.write8PA targetPA k.INT3_BREAKPOINT) with
              mem := write8PA st.mem targetPA k.INT3_BREAKPOINT }
  st.emit (.log .debug "Enabled interrupt event")

/-- `InterruptEvent::disableEvent`, X86_64. -/
def disableEvent (this : EventId) (st : State σ) : State σ :=
  let targetPA := (st.heap this).targetPA
  let originalValue := (st.heap this).originalValue
  let st := { st.emit (.write8PA targetPA originalValue) with
              mem := write8PA st.mem targetPA originalValue }
  st.emit (.log .debug "Disabled interrupt event")

/-- `InterruptEvent::storeOriginalValue`, X86_64. -/
def storeOriginalValue (k : BuildConstants) (this : EventId) (st : State σ) :
    Except VmiException Unit × State σ :=
  let ev := st.heap this
  let originalValue := read8PA st.mem ev.targetPA
  let st := (st.emit (.read8PA ev.targetPA)).setObject this { ev with originalValue := originalValue }
  let st := st.emit (.log .debug "Save original value")
  if originalValue = k.INT3_BREAKPOINT then
    (.error ⟨"storeOriginalValue: InterruptEvent originalValue @ " ++ ev.targetPAString ++
        " is already an INT3 breakpoint."⟩, st)
  else
    (.ok (), st)

/-- `InterruptEvent::setupVmiInterruptEvent`. -/
def setupVmiInterruptEvent (this : EventId) (st : State σ) :
    Except VmiException Unit × State σ :=
  let ev := st.heap this
  if (st.interruptsByPA.find ev.targetPA).isSome then
    (.error ⟨"setupVmiInterruptEvent: Interrupt already registered at this address: " ++
        ev.targetPAString⟩, st)
  else
    (.ok (), { st with interruptsByPA := st.interruptsByPA.insert ev.targetPA this })

/-- `InterruptEvent::initialize`. -/
def initializeInterruptEvent (k : BuildConstants) (this : EventId) (st : State σ) :
    Except VmiException Unit × State σ :=
  let ev := st.heap this
  let st := st.setObject this { ev with targetPAString := formatHex ev.targetPA }
  let st := st.emit .flushV2PCache
  let st := st.emit .flushPageCache
  match storeOriginalValue k this st with
  | (.error e, st) => (.error e, st)
  | (.ok (), st) =>
    match setupVmiInterruptEvent this st with
    | (.error e, st) => (.error e, st)
    | (.ok (), st) => (.ok (), enableEvent k this st)

/-- `InterruptEvent::teardown`. -/
def teardown (this : EventId) (st : State σ) : State σ :=
  let st := disableEvent this st
  if (st.heap this).hasInterruptGuard then st.emit (.guardTeardown this) else st

/-- `InterruptEvent::~InterruptEvent`. -/
def destroyInterruptEvent (this : EventId) (st : State σ) : State σ :=
  { st with interruptsByPA := st.interruptsByPA.erase (st.heap this).targetPA }

/-- `InterruptEvent::initializeInterruptEventHandling`. -/
def initializeInterruptEventHandling (st : State σ) : State σ :=
  st.emit .registerEvent

/-- `InterruptEvent::clearInterruptEventHandling`. -/
def clearInterruptEventHandling (st : State σ) : State σ :=
  let st := st.emit .pauseVm
  let st := st.emit .areEventsPending
  let st := if st.eventsPending then
      st.emit (.log .warning "Pending events during interrupt event destruction")
    else st
  let st := st.interruptsByPA.foldl (fun s entry => teardown entry.2 s) st
  let st := { st with interruptsByPA := [] }
  let st := st.emit .clearEvent
  st.emit .resumeVm

/-- `InterruptEvent::singleStepCallback`. -/
def singleStepCallback (k : BuildConstants) (this : EventId) (st : State σ) : State σ :=
  enableEvent k this st

/-- `InterruptEvent::interruptCallback`. -/
def interruptCallback (this : EventId) (regs : registers_t) (vcpuId : Nat) (st : State σ) :
    Except CppException event_response_t × State σ :=
  let st := st.emit .flushV2PCache
  let st := st.emit .flushPageCache
  let ev := st.heap this
  let st := st.emit (.userCallback this)
  match ev.callbackFunction regs st.mem st.user with
  | (.error (.runtime_error what), mem, user) =>
    (.error (.runtime_error
        ("interruptCallback: " ++ what ++ " Target physical address = " ++ ev.targetPAString)),
      { st with mem := mem, user := user })
  | (.error e, mem, user) => (.error e, { st with mem := mem, user := user })
  | (.ok response, mem, user) =>
    let st := disableEvent this { st with mem := mem, user := user }
    let st := if response = InterruptResponse.Continue then
        setSingleStepCallback vcpuId this st
      else st
    (.ok event_response_t.VMI_EVENT_RESPONSE_NONE, st)

/-- How a call of the global trap callback ends, for the driver that made it:
it returns a response and the event it was given, or an exception leaves it. -/
inductive TrapReturn
  | returned (response : event_response_t) (event : vmi_event_t)
  | escaped (e : CppException)
  deriving DecidableEq, Repr

/-- The trap address, X86_64: `(gfn << numberOfPageIndexBits) + offset` in `uint64_t`. -/
def eventPA (k : BuildConstants) (event : vmi_event_t) : addr_t :=
  ((event.gfn * 2 ^ k.numberOfPageIndexBits) % 2 ^ 64 + event.offset) % 2 ^ 64

/-- `InterruptEvent::_defaultInterruptCallback`, X86_64. -/
def _defaultInterruptCallback (k : BuildConstants) (event : vmi_event_t) (st : State σ) :
    TrapReturn × State σ :=
  let eventResponse := event_response_t.VMI_EVENT_RESPONSE_NONE
  match st.interruptsByPA.find (eventPA k event) with
  | some this =>
    match interruptCallback this event.x86_regs event.vcpu_id st with
    | (.ok response, st) =>
      (.returned response
        { event with reinject := k.DONT_REINJECT_INTERRUPT, insn_length := 1 }, st)
    | (.error (.runtime_error what), st) =>
      let st := { st with endVmi := true }
      let st := st.emit (.log .error ("Unexpected exception: " ++ what))
      (.returned eventResponse event, st.emit (.sendErrorEvent what))
    | (.error (.exception what), st) =>
      let st := { st with endVmi := true }
      let st := st.emit (.log .error ("Unexpected exception: " ++ what))
      (.returned eventResponse event, st.emit (.sendErrorEvent what))
    | (.error .foreign, st) => (.escaped .foreign, st)
  | none =>
    let st := st.emit (.log .debug "Reinject interrupt into guest OS")
    (.returned eventResponse
      { event with reinject := k.REINJECT_INTERRUPT, insn_length := 1 }, st)

end InterruptEventCpp

/-! ## SystemEventSupervisor.cpp (Linux) -/

/-- Modelled from the spec: a record of the Active-Process Registry
(ActiveProcessInformation.h is not among the sources): the base address of the
process's kernel control structure, the guest-assigned process identifier and the
process name. -/
structure ActiveProcessInformation where
  base : Nat
  pid : Nat
  name : String
  deriving DecidableEq, Repr

/-- One call of the Plugin Notifier's termination hook: the record handed over,
and the content of the registry at the moment of the call. -/
structure TerminationNotice where
  record : ActiveProcessInformation
  registryAtDelivery : List ActiveProcessInformation
  deriving DecidableEq, Repr

/-- The state the callbacks of the System Event Supervisor work on: what the
guest kernel holds for a control-structure base (identifier and name), the
Active-Process Registry, the termination notices delivered to the Plugin Notifier,
and the log. -/
structure SupervisorState where
  guestTasks : Nat → Nat × String
  processes : List ActiveProcessInformation
  terminationNotices : List TerminationNotice
  log : List String

/-- Modelled from the spec: `IActiveProcessesSupervisor::addNewProcess`
(ActiveProcessesSupervisor.cpp is not among the sources). A record is created when
the base is not yet tracked. -/
def addNewProcess (base : Nat) (s : SupervisorState) : SupervisorState :=
  if s.processes.any (fun p => p.base == base) then s
  else { s with processes := s.processes ++
          [{ base := base, pid := (s.guestTasks base).1, name := (s.guestTasks base).2 }] }

/-- Modelled from the spec: `IActiveProcessesSupervisor::getProcessInformationByBase`
(ActiveProcessesSupervisor.cpp is not among the sources): the record the registry
holds for a base, if any. -/
def getProcessInformationByBase (s : SupervisorState) (base : Nat) :
    Option ActiveProcessInformation :=
  s.processes.find? (fun p => p.base == base)

/-- Modelled from the spec: `IActiveProcessesSupervisor::removeActiveProcess`
(ActiveProcessesSupervisor.cpp is not among the sources): removes the record of a
base from the registry. -/
def removeActiveProcess (base : Nat) (s : SupervisorState) : SupervisorState :=
  { s with processes := s.processes.filter (fun p => p.base != base) }

/-- Modelled from the spec: `IPluginSystem::passProcessTerminationEventToRegisteredPlugins`
(PluginSystem.cpp is not among the sources): hands the record to the Plugin
Notifier's termination hook. An exit for an unknown base is logged and delivers
nothing. -/
def passProcessTerminationEventToRegisteredPlugins (info : Option ActiveProcessInformation)
    (s : SupervisorState) : SupervisorState :=
  match info with
  | some record =>
    { s with terminationNotices := s.terminationNotices ++ [⟨record, s.processes⟩] }
  | none => { s with log := s.log ++ ["exit for an unknown process base"] }

/-- `Linux::SystemEventSupervisor::procForkConnectorCallback`, X86_64. -/
def procForkConnectorCallback : Callback SupervisorState :=
  fun regs mem s =>
    let base := regs.rdi
    let s := addNewProcess base s
    (.ok InterruptResponse.Continue, mem, s)

/-- `Linux::SystemEventSupervisor::procExecConnectorCallback`, X86_64. -/
def procExecConnectorCallback : Callback SupervisorState :=
  fun regs mem s =>
    let base := regs.rdi
    let s := addNewProcess base s
    (.ok InterruptResponse.Continue, mem, s)

/-- `Linux::SystemEventSupervisor::procExitConnectorCallback`, X86_64. -/
def procExitConnectorCallback : Callback SupervisorState :=
  fun regs mem s =>
    let taskStructBase := regs.rdi
    let s := passProcessTerminationEventToRegisteredPlugins
      (getProcessInformationByBase s taskStructBase) s
    let s := removeActiveProcess taskStructBase s
    (.ok InterruptResponse.Continue, mem, s)

/-- A supervisor state with an empty registry, no notice delivered, in a guest
where the task at base `b` has identifier `b + 1` and name "task". -/
def emptySupervisorState : SupervisorState :=
  { guestTasks := fun b => (b + 1, "task"), processes := [], terminationNotices := [],
    log := [] }

/-! ## VmiHub.cpp -/

/-- Signal numbers from `<csignal>`. -/
def SIGINT : Int := 2

/-- Signal numbers from `<csignal>`. -/
def SIGTERM : Int := 15

/-- Every call that leaves VmiHub.cpp, as it appears in the session trace. -/
inductive HubCall
  | initializeVmi
  | getOsType
  | initializePlugin (name : String)
  | pauseVm
  | resumeVm
  | systemEventSupervisorInitialize
  | systemEventSupervisorTeardown
  | sendReadyEvent
  | sigaction (signal : Int)
  | waitForEvent
  | passShutdownEventToRegisteredPlugins
  | sendErrorEvent (what : String)
  | log (level : LogLevel) (message : String)
  deriving DecidableEq, Repr

/-- The process-wide session state: `GlobalControl::endVmi`,
`GlobalControl::postRunPluginAction`, the file-level `exitCode` (an `int`), and the
trace of calls made so far. -/
structure Session where
  endVmi : Bool
  postRunPluginAction : Bool
  exitCode : Int
  trace : List HubCall
  deriving DecidableEq, Repr

/-- Appends one call to the session trace. -/
def Session.emit (s : Session) (c : HubCall) : Session :=
  { s with trace := s.trace ++ [c] }

/-- The session when the process starts: `int exitCode = 0;`, both flags clear. -/
def initialSession : Session :=
  { endVmi := false, postRunPluginAction := false, exitCode := 0, trace := [] }

/-- `logReceivedSignal`. -/
def logReceivedSignal (signal : Int) (s : Session) : Session :=
  if signal > 0 then
    if signal = SIGINT then
      s.emit (.log .info "externalInterruptHandler: SIGINT received")
    else if signal = SIGTERM then
      s.emit (.log .info "externalInterruptHandler: SIGTERM received")
    else
      s.emit (.log .error "Called for unhandled signal. This should never occur")
  else s

/-- `externalInterruptHandler`; `128 + signal` is `int` arithmetic, signal
numbers are far from the ends of the `int` range. -/
def externalInterruptHandler (signal : Int) (s : Session) : Session :=
  let s := { s with exitCode := 128 + signal }
  let s := logReceivedSignal signal s
  { s with endVmi := true }

/-- What happens during one call of the driver's blocking `waitForEvent`: the
signals delivered while it is in progress (their handler runs at once), whether a
trap callback run inside the call sets `endVmi` (as `_defaultInterruptCallback`
does when a user callback throws), and whether the call ends by throwing a
`std::exception` with the given message. -/
structure WaitCall where
  signals : List Int
  callbackEndsVmi : Bool
  throws : Option String
  deriving DecidableEq, Repr

/-- One iteration of the loop body of `VmiHub::waitForEvents`: the `try` block
around `vmiInterface->waitForEvent()` and its `catch`. -/
def waitForEventCall (c : WaitCall) (s : Session) : Session :=
  let s := s.emit .waitForEvent
  let s := c.signals.foldl (fun s signal => externalInterruptHandler signal s) s
  let s := if c.callbackEndsVmi then { s with endVmi := true } else s
  match c.throws with
  | none => s
  | some what =>
    let s := s.emit (.log .error ("Error while waiting for events: " ++ what))
    let s := s.emit (.sendErrorEvent what)
    let s := s.emit (.log .info "Trying to get the VM state")
    let s := { s with exitCode := 1 }
    { s with endVmi := true }

/-- How the wait loop ends for a given script of driver calls: its condition is
found false, or the script is used up while the driver is still blocking. -/
inductive LoopEnd
  | exited
  | blocked
  deriving DecidableEq, Repr

/-- The loop `while (!GlobalControl::endVmi)` of `VmiHub::waitForEvents`, run
against a script that says what each successive `waitForEvent` call does. -/
def waitLoop : List WaitCall → Session → LoopEnd × Session
  | [], s => if s.endVmi then (.exited, s) else (.blocked, s)
  | c :: cs, s => if s.endVmi then (.exited, s) else waitLoop cs (waitForEventCall c s)

/-- `VmiHub::waitForEvents` (without TRACE_MODE). -/
def waitForEvents (script : List WaitCall) (s : Session) : LoopEnd × Session :=
  waitLoop script { s with postRunPluginAction := true }

/-- `VmiHub::performShutdownPluginAction`. -/
def performShutdownPluginAction (s : Session) : Session :=
  let s := s.emit .pauseVm
  let s := s.emit .passShutdownEventToRegisteredPlugins
  s.emit .resumeVm

/-- The guest OS reported by `getOsType`. -/
inductive os_t
  | VMI_OS_LINUX
  | VMI_OS_WINDOWS
  | VMI_OS_UNKNOWN
  deriving DecidableEq, Repr

/-- What the outside world does during one execution of `run`: the guest OS the
driver reports, the configured plugins, the status of the two `sigaction` calls,
and the script of `waitForEvent` calls. The other outside calls return normally. -/
structure Environment where
  osType : os_t
  plugins : List String
  sigactionSIGINT : Int
  sigactionSIGTERM : Int
  script : List WaitCall

/-- How `run` ends: it returns the exit status, it throws, or the driver blocks
for ever in the wait loop. -/
inductive RunResult
  | returned (status : Nat)
  | threw (what : String)
  | blocked
  deriving DecidableEq, Repr

/-- `setupSignalHandling`: the message of the exception it throws, if any. -/
def setupSignalHandling (env : Environment) (s : Session) : Option String × Session :=
  let s := s.emit (.sigaction SIGINT)
  if env.sigactionSIGINT ≠ 0 then
    (some "Unable to register SIGINT action handler.", s)
  else
    let s := s.emit (.sigaction SIGTERM)
    if env.sigactionSIGTERM ≠ 0 then
      (some "Unable to register SIGTERM action handler.", s)
    else (none, s)

/-- `VmiHub::run`, X86_64; the value returned is `exitCode` converted to `uint`. -/
def run (env : Environment) (s : Session) : RunResult × Session :=
  let s := s.emit .initializeVmi
  let s := s.emit .getOsType
  match env.osType with
  | .VMI_OS_UNKNOWN => (.threw "Unknown operating system.", s)
  | _ =>
    let s := env.plugins.foldl (fun s name => s.emit (.initializePlugin name)) s
    let s := s.emit .pauseVm
    let s := s.emit .systemEventSupervisorInitialize
    let s := s.emit .resumeVm
    let s := s.emit .sendReadyEvent
    match setupSignalHandling env s with
    | (some what, s) => (.threw what, s)
    | (none, s) =>
      match waitForEvents env.script s with
      | (.blocked, s) => (.blocked, s)
      | (.exited, s) =>
        let s := if s.postRunPluginAction then performShutdownPluginAction s else s
        let s := s.emit .systemEventSupervisorTeardown
        (.returned (s.exitCode % 2 ^ 32).toNat, s)

/-- A `waitForEvent` call during which nothing ends the session. -/
def WaitCall.quiet (c : WaitCall) : Prop :=
  c.signals = [] ∧ c.callbackEndsVmi = false ∧ c.throws = none

/-- An execution environment: a Linux guest, no plugins, both `sigaction` calls
succeed, and the given script of `waitForEvent` calls. -/
def linuxEnvironment (script : List WaitCall) : Environment :=
  { osType := .VMI_OS_LINUX, plugins := [], sigactionSIGINT := 0, sigactionSIGTERM := 0,
    script := script }

/-- The number of `waitForEvent` calls in a session trace. -/
def waitCalls (t : List HubCall) : Nat := t.count HubCall.waitForEvent

/-- The session in which `run` calls `waitForEvents`, for a supported guest OS and
successful `sigaction` calls. -/
def startupSession (env : Environment) (s : Session) : Session :=
  ((((((env.plugins.foldl (fun s name => s.emit (.initializePlugin name))
    ((s.emit .initializeVmi).emit .getOsType)).emit .pauseVm).emit
    .systemEventSupervisorInitialize).emit .resumeVm).emit .sendReadyEvent).emit
    (.sigaction SIGINT)).emit (.sigaction SIGTERM)

/-! ## Auxiliary states and example inputs -/

/-- The state in which `initialize` calls `storeOriginalValue`. -/
def armPrologue {σ : Type} (this : EventId) (st : State σ) : State σ :=
  (((st.setObject this
      { st.heap this with targetPAString := formatHex (st.heap this).targetPA }).emit
      .flushV2PCache).emit .flushPageCache)

/-- The state in which `storeOriginalValue` returns or throws. -/
def armStored {σ : Type} (this : EventId) (st : State σ) : State σ :=
  (((armPrologue this st).emit (.read8PA (st.heap this).targetPA)).setObject this
      { targetPA := (st.heap this).targetPA
        targetPAString := formatHex (st.heap this).targetPA
        originalValue := read8PA st.mem (st.heap this).targetPA
        hasInterruptGuard := (st.heap this).hasInterruptGuard
        callbackFunction := (st.heap this).callbackFunction }).emit
    (.log .debug "Save original value")

/-- The state in which `interruptCallback` invokes the user callback. -/
def trapPrologue {σ : Type} (this : EventId) (st : State σ) : State σ :=
  ((st.emit .flushV2PCache).emit .flushPageCache).emit (.userCallback this)

/-- A text occurs in a message. -/
def occursIn (part message : String) : Prop := part.data <:+: message.data

instance occursInDecidable (part message : String) : Decidable (occursIn part message) :=
  inferInstanceAs (Decidable (part.data <:+: message.data))

/-- The events whose user callback was invoked, in order, according to a trace. -/
def callbacksInvoked (t : List Effect) : List EventId :=
  t.filterMap (fun e => match e with
    | .userCallback ev => some ev
    | _ => none)

/-- The `setSingleStepCallback` calls (virtual CPU, event), in order, according to a trace. -/
def singleStepRegistrations (t : List Effect) : List (Nat × EventId) :=
  t.filterMap (fun e => match e with
    | .setSingleStepCallback vcpuId ev => some (vcpuId, ev)
    | _ => none)

/-- The `sendErrorEvent` messages, in order, according to a trace. -/
def errorEventsSent (t : List Effect) : List String :=
  t.filterMap (fun e => match e with
    | .sendErrorEvent what => some what
    | _ => none)

/-- The bytes written through `write8PA` (address, value), in order, according to a trace. -/
def writes (t : List Effect) : List (addr_t × Nat) :=
  t.filterMap (fun e => match e with
    | .write8PA a v => some (a, v)
    | _ => none)

/-- A trap reported at guest frame 1, offset 0, that is at physical address
0x1000 for 4 KiB pages, by the given virtual CPU, with the `reinject` field as
the driver hands it over. -/
def trapAt0x1000 (vcpuId : Nat) (reinject : Int) : vmi_event_t :=
  { gfn := 1, offset := 0, vcpu_id := vcpuId, reinject := reinject, insn_length := 0,
    x86_regs := ⟨0⟩ }

/-- A user callback without effects that returns the given decision. -/
def constCallback (r : InterruptResponse) : Callback Unit :=
  fun _ m u => (.ok r, m, u)

/-- A user callback without effects that throws the given exception. -/
def throwingCallback (e : CppException) : Callback Unit :=
  fun _ m u => (.error e, m, u)

/-- A freshly constructed Interrupt Event object for a target address. -/
def newEvent (targetPA : addr_t) (cb : Callback Unit) : InterruptEvent Unit :=
  { targetPA := targetPA, targetPAString := "", originalValue := 0,
    hasInterruptGuard := false, callbackFunction := cb }

/-- A session before any breakpoint is armed: every byte of guest memory is
0x55, the dispatch table is empty, and every Interrupt Event object targets
address 0x1000 with the given callback. -/
def freshState (cb : Callback Unit) : State Unit :=
  { mem := fun _ => 0x55, interruptsByPA := [], heap := fun _ => newEvent 0x1000 cb,
    singleStepCallbacks := fun _ => none, endVmi := false, eventsPending := false,
    user := (), trace := [] }

/-- The session of `freshState` after event object 0 has been armed at 0x1000. -/
def armedState (cb : Callback Unit) : State Unit :=
  (initializeInterruptEvent x86Constants 0 (freshState cb)).2

/-- The part of `VmiHub::run` that follows the call of `waitForEvents`. -/
def finishRun (s : Session) : RunResult × Session :=
  let s := if s.postRunPluginAction then performShutdownPluginAction s else s
  let s := s.emit .systemEventSupervisorTeardown
  (.returned (s.exitCode % 2 ^ 32).toNat, s)

/-- The loop of `waitForEvents` entered in a given session state, followed by the
rest of `run`. -/
def runFromWaitLoop (script : List WaitCall) (s : Session) : RunResult × Session :=
  match waitLoop script s with
  | (.blocked, s) => (.blocked, s)
  | (.exited, s) => finishRun s

/-- The number of shutdown notifications passed to the plugins in a session trace. -/
def shutdownNotifications (t : List HubCall) : Nat :=
  t.count HubCall.passShutdownEventToRegisteredPlugins

/-- The state in which `clearInterruptEventHandling` starts its loop over the
dispatch table. -/
def clearPrologue {σ : Type} (st : State σ) : State σ :=
  if st.eventsPending then
    ((st.emit .pauseVm).emit .areEventsPending).emit
      (.log .warning "Pending events during interrupt event destruction")
  else (st.emit .pauseVm).emit .areEventsPending

/-- The armed example session after a trap at 0x1000 on virtual CPU 3 whose
callback returned `Continue`: event object 0 is still registered at 0x1000, has
disarmed itself and waits for its single-step callback. -/
def waitingState : State Unit :=
  (_defaultInterruptCallback x86Constants (trapAt0x1000 3 0)
    (armedState (constCallback .Continue))).2

/-! ## Facts about the dispatch table -/

theorem PAMap.find_insert (m : PAMap) (a b : addr_t) (e : EventId) :
    (m.insert a e).find b = if b = a then some e else m.find b := by
  induction m with
  | nil => simp [PAMap.insert, PAMap.find]
  | cons kv rest ih =>
    obtain ⟨k, v⟩ := kv
    by_cases h1 : a < k
    · simp [PAMap.insert, PAMap.find, h1]
    · by_cases h2 : a = k
      · subst h2
        by_cases h3 : b = a <;> simp [PAMap.insert, PAMap.find, h3]
      · by_cases h3 : b = k
        · subst h3
          have : ¬ b = a := fun h => h2 h.symm
          simp [PAMap.insert, PAMap.find, h1, h2, this]
        · simp [PAMap.insert, PAMap.find, h1, h2, h3, ih]

theorem PAMap.mem_keys_insert (m : PAMap) (a x : addr_t) (e : EventId) :
    x ∈ PAMap.keys (m.insert a e) ↔ x = a ∨ x ∈ PAMap.keys m := by
  induction m with
  | nil => simp [PAMap.insert, PAMap.keys]
  | cons kv rest ih =>
    obtain ⟨k, v⟩ := kv
    simp only [PAMap.keys] at ih
    by_cases h1 : a < k
    · simp [PAMap.insert, PAMap.keys, h1]
    · by_cases h2 : a = k
      · subst h2
        simp [PAMap.insert, PAMap.keys]
      · simp only [PAMap.insert, PAMap.keys, h1, h2, if_false, List.map_cons, List.mem_cons, ih]
        tauto

theorem PAMap.WF_insert (m : PAMap) (a : addr_t) (e : EventId) (h : PAMap.WF m) :
    PAMap.WF (m.insert a e) := by
  induction m with
  | nil => simp [PAMap.insert, PAMap.WF, PAMap.keys]
  | cons kv rest ih =>
    obtain ⟨k, v⟩ := kv
    have hk : ∀ x ∈ PAMap.keys rest, k < x := by
      simpa [PAMap.WF, PAMap.keys] using (List.pairwise_cons.mp h).1
    have hrest : PAMap.WF rest := (List.pairwise_cons.mp h).2
    by_cases h1 : a < k
    · simp only [PAMap.insert, h1, if_true, PAMap.WF, PAMap.keys, List.map_cons]
      refine List.pairwise_cons.mpr ⟨?_, h⟩
      intro x hx
      rcases List.mem_cons.mp hx with hx | hx
      · exact hx ▸ h1
      · exact lt_trans h1 (hk x hx)
    · by_cases h2 : a = k
      · subst h2
        simp only [PAMap.insert, lt_irrefl, if_false, if_true, PAMap.WF, PAMap.keys, List.map_cons]
        exact h
      · simp only [PAMap.insert, h1, h2, if_false, PAMap.WF, PAMap.keys, List.map_cons]
        refine List.pairwise_cons.mpr ⟨?_, ih hrest⟩
        intro x hx
        rcases (PAMap.mem_keys_insert rest a x e).mp hx with hx | hx
        · subst hx
          exact Nat.lt_of_le_of_ne (Nat.le_of_not_lt h1) (fun h => h2 h.symm)
        · exact hk x hx

theorem PAMap.WF_nodup (m : PAMap) (h : PAMap.WF m) : (PAMap.keys m).Nodup :=
  List.Pairwise.imp (fun hab => Nat.ne_of_lt hab) h

theorem PAMap.find_isSome_iff (m : PAMap) (a : addr_t) :
    (m.find a).isSome ↔ a ∈ PAMap.keys m := by
  induction m with
  | nil => simp [PAMap.find, PAMap.keys]
  | cons kv rest ih =>
    obtain ⟨k, v⟩ := kv
    simp only [PAMap.keys] at ih
    by_cases h : a = k
    · simp [PAMap.find, PAMap.keys, h]
    · simp [PAMap.find, PAMap.keys, h, ih]

/-! ## Arming an Interrupt Event -/

section Arming

variable {σ : Type}

theorem initialize_breakpoint_present (k : BuildConstants) (this : EventId) (st : State σ)
    (h : read8PA st.mem (st.heap this).targetPA = k.INT3_BREAKPOINT) :
    initializeInterruptEvent k this st =
      (.error ⟨"storeOriginalValue: InterruptEvent originalValue @ " ++
          formatHex (st.heap this).targetPA ++ " is already an INT3 breakpoint."⟩,
        armStored this st) := by
  simp [initializeInterruptEvent, storeOriginalValue, armStored, armPrologue, State.emit,
    State.setObject, h]

theorem initialize_address_occupied (k : BuildConstants) (this : EventId) (st : State σ)
    (h : read8PA st.mem (st.heap this).targetPA ≠ k.INT3_BREAKPOINT)
    (hocc : (st.interruptsByPA.find (st.heap this).targetPA).isSome = true) :
    initializeInterruptEvent k this st =
      (.error ⟨"setupVmiInterruptEvent: Interrupt already registered at this address: " ++
          formatHex (st.heap this).targetPA⟩,
        armStored this st) := by
  simp [initializeInterruptEvent, storeOriginalValue, setupVmiInterruptEvent, armStored,
    armPrologue, State.emit, State.setObject, h, hocc]

theorem initialize_success (k : BuildConstants) (this : EventId) (st : State σ)
    (h : read8PA st.mem (st.heap this).targetPA ≠ k.INT3_BREAKPOINT)
    (hfree : (st.interruptsByPA.find (st.heap this).targetPA).isSome = false) :
    initializeInterruptEvent k this st =
      (.ok (), enableEvent k this
        { armStored this st with
          interruptsByPA := st.interruptsByPA.insert (st.heap this).targetPA this }) := by
  simp [initializeInterruptEvent, storeOriginalValue, setupVmiInterruptEvent, armStored,
    armPrologue, State.emit, State.setObject, h, hfree]

/-- C1: `initialize` (arm) throws the domain error exactly when the byte read at
the target address already is the breakpoint encoding or the target address is
already a key of the dispatch table. When it throws, the dispatch table and guest
memory are as before and the calls made are two cache flushes, the read and a log
line, no write. In every case the keys of the table stay strictly increasing, so no
address has two entries. -/
theorem arm_fails_iff_conflict (k : BuildConstants) (this : EventId) (st : State σ)
    (hwf : PAMap.WF st.interruptsByPA) :
    ((∃ e, (initializeInterruptEvent k this st).1 = .error e) ↔
        (read8PA st.mem (st.heap this).targetPA = k.INT3_BREAKPOINT ∨
          (st.heap this).targetPA ∈ PAMap.keys st.interruptsByPA)) ∧
    ((∃ e, (initializeInterruptEvent k this st).1 = .error e) →
        (initializeInterruptEvent k this st).2.interruptsByPA = st.interruptsByPA ∧
        (initializeInterruptEvent k this st).2.mem = st.mem ∧
        (initializeInterruptEvent k this st).2.trace =
          st.trace ++ [.flushV2PCache, .flushPageCache, .read8PA (st.heap this).targetPA,
            .log .debug "Save original value"]) ∧
    PAMap.WF (initializeInterruptEvent k this st).2.interruptsByPA ∧
    (PAMap.keys (initializeInterruptEvent k this st).2.interruptsByPA).Nodup := by
  have hstored : (armStored this st).interruptsByPA = st.interruptsByPA ∧
      (armStored this st).mem = st.mem ∧
      (armStored this st).trace =
        st.trace ++ [.flushV2PCache, .flushPageCache, .read8PA (st.heap this).targetPA,
          .log .debug "Save original value"] := by
    simp [armStored, armPrologue, State.emit, State.setObject]
  by_cases hbp : read8PA st.mem (st.heap this).targetPA = k.INT3_BREAKPOINT
  · rw [initialize_breakpoint_present k this st hbp]
    refine ⟨⟨fun _ => Or.inl hbp, fun _ => ⟨_, rfl⟩⟩, fun _ => hstored, ?_, ?_⟩
    · rw [hstored.1]; exact hwf
    · rw [hstored.1]; exact PAMap.WF_nodup _ hwf
  · by_cases hocc : (st.interruptsByPA.find (st.heap this).targetPA).isSome = true
    · rw [initialize_address_occupied k this st hbp hocc]
      refine ⟨⟨fun _ => Or.inr ((PAMap.find_isSome_iff _ _).mp hocc), fun _ => ⟨_, rfl⟩⟩,
        fun _ => hstored, ?_, ?_⟩
      · rw [hstored.1]; exact hwf
      · rw [hstored.1]; exact PAMap.WF_nodup _ hwf
    · have hfree : (st.interruptsByPA.find (st.heap this).targetPA).isSome = false := by
        simpa using hocc
      rw [initialize_success k this st hbp hfree]
      have hwf2 : PAMap.WF
          (enableEvent k this { armStored this st with
            interruptsByPA := st.interruptsByPA.insert (st.heap this).targetPA this
            }).interruptsByPA := by
        simpa [enableEvent, State.emit] using PAMap.WF_insert _ _ _ hwf
      refine ⟨⟨?_, ?_⟩, ?_, hwf2, PAMap.WF_nodup _ hwf2⟩
      · rintro ⟨e, he⟩
        cases he
      · rintro (h | h)
        · exact absurd h hbp
        · exact absurd ((PAMap.find_isSome_iff _ _).mpr h) hocc
      · rintro ⟨e, he⟩
        cases he

/-- C1, at a concrete input: a second Interrupt Event object (1) armed at 0x1000
while object 0 is registered there. -/
theorem arm_fails_iff_conflict_witness :
    PAMap.WF (armedState (constCallback .Continue)).interruptsByPA ∧
    (initializeInterruptEvent x86Constants 1 (armedState (constCallback .Continue))).2.interruptsByPA
      = (armedState (constCallback .Continue)).interruptsByPA := by
  have hwf : PAMap.WF (armedState (constCallback .Continue)).interruptsByPA := by
    simp [armedState, freshState, initializeInterruptEvent, storeOriginalValue,
      setupVmiInterruptEvent, enableEvent, State.emit, State.setObject, newEvent, read8PA,
      x86Constants, PAMap.find, PAMap.insert, PAMap.WF, PAMap.keys]
  refine ⟨hwf, ?_⟩
  have h := arm_fails_iff_conflict x86Constants 1 (armedState (constCallback .Continue)) hwf
  refine (h.2.1 (h.1.mpr (Or.inr ?_))).1
  simp [armedState, freshState, initializeInterruptEvent, storeOriginalValue,
    setupVmiInterruptEvent, enableEvent, State.emit, State.setObject, newEvent, read8PA,
    x86Constants, PAMap.find, PAMap.insert, PAMap.keys]

theorem read8PA_write8PA_same (m : Mem) (a v : Nat) : read8PA (write8PA m a v) a = v % 256 := by
  simp [read8PA, write8PA]

theorem write8PA_other (m : Mem) (a v x : Nat) (h : x ≠ a) : write8PA m a v x = m x := by
  simp [write8PA, h]

theorem enableEvent_mem (k : BuildConstants) (this : EventId) (st : State σ) :
    (enableEvent k this st).mem = write8PA st.mem (st.heap this).targetPA k.INT3_BREAKPOINT := by
  simp [enableEvent, State.emit]

theorem enableEvent_heap (k : BuildConstants) (this : EventId) (st : State σ) :
    (enableEvent k this st).heap = st.heap := by
  simp [enableEvent, State.emit]

theorem disableEvent_mem (this : EventId) (st : State σ) :
    (disableEvent this st).mem =
      write8PA st.mem (st.heap this).targetPA (st.heap this).originalValue := by
  simp [disableEvent, State.emit]

theorem armStored_mem (this : EventId) (st : State σ) : (armStored this st).mem = st.mem := by
  simp [armStored, armPrologue, State.emit, State.setObject]

theorem armStored_object (this : EventId) (st : State σ) :
    ((armStored this st).heap this).targetPA = (st.heap this).targetPA ∧
    ((armStored this st).heap this).originalValue = read8PA st.mem (st.heap this).targetPA ∧
    ((armStored this st).heap this).targetPAString = formatHex (st.heap this).targetPA := by
  simp [armStored, armPrologue, State.emit, State.setObject]

/-- C2: when the target address is not a key of the dispatch table and the byte
there is not the breakpoint encoding, `initialize` succeeds and the target address
then reads as the breakpoint encoding; after a following `disableEvent` it reads
as the original byte again; every other address holds what it held before
`initialize`, both after arming and after disarming. -/
theorem arm_disarm_round_trip (k : BuildConstants) (this : EventId) (st : State σ)
    (hfree : (st.heap this).targetPA ∉ PAMap.keys st.interruptsByPA)
    (hb : read8PA st.mem (st.heap this).targetPA ≠ k.INT3_BREAKPOINT) :
    (initializeInterruptEvent k this st).1 = .ok () ∧
    read8PA (initializeInterruptEvent k this st).2.mem (st.heap this).targetPA
      = k.INT3_BREAKPOINT ∧
    read8PA (disableEvent this (initializeInterruptEvent k this st).2).mem
      (st.heap this).targetPA = read8PA st.mem (st.heap this).targetPA ∧
    (∀ x, x ≠ (st.heap this).targetPA →
      (initializeInterruptEvent k this st).2.mem x = st.mem x ∧
      (disableEvent this (initializeInterruptEvent k this st).2).mem x = st.mem x) := by
  have hnone : (st.interruptsByPA.find (st.heap this).targetPA).isSome = false := by
    cases h : (st.interruptsByPA.find (st.heap this).targetPA).isSome
    · rfl
    · exact absurd ((PAMap.find_isSome_iff _ _).mp h) hfree
  have hobj := armStored_object this st
  rw [initialize_success k this st hb hnone]
  refine ⟨rfl, ?_, ?_, ?_⟩
  · simp only [enableEvent_mem, hobj.1, armStored_mem, read8PA_write8PA_same]
    exact Nat.mod_eq_of_lt k.INT3_BREAKPOINT_is_uint8
  · simp only [disableEvent_mem, enableEvent_heap, hobj.1, hobj.2.1, read8PA_write8PA_same]
    simp [read8PA]
  · intro x hx
    simp only [disableEvent_mem, enableEvent_mem, enableEvent_heap, hobj.1, armStored_mem]
    simp [write8PA, hx]

/-- C2, at a concrete input: event object 0 armed and disarmed at 0x1000 in a
guest whose memory holds 0x55 everywhere. -/
theorem arm_disarm_round_trip_witness :
    ((freshState (constCallback .Continue)).heap 0).targetPA ∉
      PAMap.keys (freshState (constCallback .Continue)).interruptsByPA ∧
    read8PA (freshState (constCallback .Continue)).mem
      ((freshState (constCallback .Continue)).heap 0).targetPA ≠ x86Constants.INT3_BREAKPOINT ∧
    read8PA (initializeInterruptEvent x86Constants 0 (freshState (constCallback .Continue))).2.mem
      0x1000 = 0xCC ∧
    read8PA (disableEvent 0
      (initializeInterruptEvent x86Constants 0 (freshState (constCallback .Continue))).2).mem
      0x1000 = 0x55 := by
  have h1 : ((freshState (constCallback .Continue)).heap 0).targetPA ∉
      PAMap.keys (freshState (constCallback .Continue)).interruptsByPA := by
    simp [freshState, PAMap.keys]
  have h2 : read8PA (freshState (constCallback .Continue)).mem
      ((freshState (constCallback .Continue)).heap 0).targetPA ≠ x86Constants.INT3_BREAKPOINT := by
    simp [freshState, read8PA, x86Constants]
  have h := arm_disarm_round_trip x86Constants 0 (freshState (constCallback .Continue)) h1 h2
  exact ⟨h1, h2, h.2.1, h.2.2.1⟩

end Arming

/-! ## Trap handling -/

section Traps

variable {σ : Type}

theorem callbacksInvoked_append (t u : List Effect) :
    callbacksInvoked (t ++ u) = callbacksInvoked t ++ callbacksInvoked u := by
  simp [callbacksInvoked, List.filterMap_append]

theorem singleStepRegistrations_append (t u : List Effect) :
    singleStepRegistrations (t ++ u) =
      singleStepRegistrations t ++ singleStepRegistrations u := by
  simp [singleStepRegistrations, List.filterMap_append]

theorem errorEventsSent_append (t u : List Effect) :
    errorEventsSent (t ++ u) = errorEventsSent t ++ errorEventsSent u := by
  simp [errorEventsSent, List.filterMap_append]

theorem interruptCallback_returns (this : EventId) (regs : registers_t) (vcpuId : Nat)
    (st : State σ) (response : InterruptResponse) (m : Mem) (u : σ)
    (hcb : (st.heap this).callbackFunction regs st.mem st.user = (.ok response, m, u)) :
    interruptCallback this regs vcpuId st =
      (.ok .VMI_EVENT_RESPONSE_NONE,
        if response = InterruptResponse.Continue then
          setSingleStepCallback vcpuId this
            (disableEvent this { trapPrologue this st with mem := m, user := u })
        else disableEvent this { trapPrologue this st with mem := m, user := u }) := by
  simp [interruptCallback, trapPrologue, State.emit, hcb]

theorem interruptCallback_runtime_error (this : EventId) (regs : registers_t) (vcpuId : Nat)
    (st : State σ) (what : String) (m : Mem) (u : σ)
    (hcb : (st.heap this).callbackFunction regs st.mem st.user =
      (.error (.runtime_error what), m, u)) :
    interruptCallback this regs vcpuId st =
      (.error (.runtime_error ("interruptCallback: " ++ what ++
          " Target physical address = " ++ (st.heap this).targetPAString)),
        { trapPrologue this st with mem := m, user := u }) := by
  simp [interruptCallback, trapPrologue, State.emit, hcb]

theorem interruptCallback_exception (this : EventId) (regs : registers_t) (vcpuId : Nat)
    (st : State σ) (what : String) (m : Mem) (u : σ)
    (hcb : (st.heap this).callbackFunction regs st.mem st.user =
      (.error (.exception what), m, u)) :
    interruptCallback this regs vcpuId st =
      (.error (.exception what), { trapPrologue this st with mem := m, user := u }) := by
  simp [interruptCallback, trapPrologue, State.emit, hcb]

theorem interruptCallback_foreign (this : EventId) (regs : registers_t) (vcpuId : Nat)
    (st : State σ) (m : Mem) (u : σ)
    (hcb : (st.heap this).callbackFunction regs st.mem st.user = (.error .foreign, m, u)) :
    interruptCallback this regs vcpuId st =
      (.error .foreign, { trapPrologue this st with mem := m, user := u }) := by
  simp [interruptCallback, trapPrologue, State.emit, hcb]

/-- C3 (amended): a trap whose decoded address is registered to `this` invokes the
user callback of `this` once and no other user callback. When that callback
returns, the handler hands the event back with `reinject` set to
`DONT_REINJECT_INTERRUPT`; when it returns `Continue`, exactly one
`setSingleStepCallback` call is made, for the trap's `vcpu_id` and bound to `this`,
and the registry holds it for that virtual CPU and is unchanged for the others.
When the callback throws an exception derived from `std::exception`, the handler
hands the event back as it received it. -/
theorem trap_at_registered_address (k : BuildConstants) (event : vmi_event_t) (st : State σ)
    (this : EventId) (hreg : st.interruptsByPA.find (eventPA k event) = some this) :
    callbacksInvoked (_defaultInterruptCallback k event st).2.trace =
      callbacksInvoked st.trace ++ [this] ∧
    (∀ response m u,
      (st.heap this).callbackFunction event.x86_regs st.mem st.user = (.ok response, m, u) →
        (_defaultInterruptCallback k event st).1 =
          .returned .VMI_EVENT_RESPONSE_NONE
            { event with reinject := k.DONT_REINJECT_INTERRUPT, insn_length := 1 } ∧
        (response = InterruptResponse.Continue →
          singleStepRegistrations (_defaultInterruptCallback k event st).2.trace =
            singleStepRegistrations st.trace ++ [(event.vcpu_id, this)] ∧
          (_defaultInterruptCallback k event st).2.singleStepCallbacks event.vcpu_id
            = some this ∧
          ∀ v, v ≠ event.vcpu_id →
            (_defaultInterruptCallback k event st).2.singleStepCallbacks v
              = st.singleStepCallbacks v)) ∧
    (∀ e m u,
      (st.heap this).callbackFunction event.x86_regs st.mem st.user = (.error e, m, u) →
        e ≠ CppException.foreign →
        (_defaultInterruptCallback k event st).1 = .returned .VMI_EVENT_RESPONSE_NONE event) := by
  refine ⟨?_, ?_, ?_⟩
  · rcases hcb : (st.heap this).callbackFunction event.x86_regs st.mem st.user with ⟨res, m, u⟩
    rcases res with e | response
    · cases e with
      | runtime_error what =>
        simp [_defaultInterruptCallback, hreg, interruptCallback_runtime_error _ _ _ _ _ _ _ hcb,
          trapPrologue, State.emit, callbacksInvoked]
      | exception what =>
        simp [_defaultInterruptCallback, hreg, interruptCallback_exception _ _ _ _ _ _ _ hcb,
          trapPrologue, State.emit, callbacksInvoked]
      | foreign =>
        simp [_defaultInterruptCallback, hreg, interruptCallback_foreign _ _ _ _ _ _ hcb,
          trapPrologue, State.emit, callbacksInvoked]
    · by_cases hc : response = InterruptResponse.Continue
      · simp [_defaultInterruptCallback, hreg, interruptCallback_returns _ _ _ _ _ _ _ hcb, hc,
          trapPrologue, State.emit, callbacksInvoked, setSingleStepCallback, disableEvent]
      · simp [_defaultInterruptCallback, hreg, interruptCallback_returns _ _ _ _ _ _ _ hcb, hc,
          trapPrologue, State.emit, callbacksInvoked, disableEvent]
  · intro response m u hcb
    refine ⟨?_, ?_⟩
    · simp [_defaultInterruptCallback, hreg, interruptCallback_returns _ _ _ _ _ _ _ hcb]
    · intro hc
      subst hc
      refine ⟨?_, ?_, ?_⟩
      · simp [_defaultInterruptCallback, hreg, interruptCallback_returns _ _ _ _ _ _ _ hcb,
          trapPrologue, State.emit, singleStepRegistrations, setSingleStepCallback, disableEvent]
      · simp [_defaultInterruptCallback, hreg, interruptCallback_returns _ _ _ _ _ _ _ hcb,
          setSingleStepCallback]
      · intro v hv
        simp [_defaultInterruptCallback, hreg, interruptCallback_returns _ _ _ _ _ _ _ hcb,
          trapPrologue, State.emit, setSingleStepCallback, disableEvent, hv]
  · intro e m u hcb hne
    cases e with
    | runtime_error what =>
      simp [_defaultInterruptCallback, hreg, interruptCallback_runtime_error _ _ _ _ _ _ _ hcb]
    | exception what =>
      simp [_defaultInterruptCallback, hreg, interruptCallback_exception _ _ _ _ _ _ _ hcb]
    | foreign => exact absurd rfl hne

/-- The armed example session: event object 0 is registered at 0x1000, memory
there holds the breakpoint, and the object has saved the original byte 0x55. -/
theorem armedState_facts (cb : Callback Unit) :
    (armedState cb).interruptsByPA = [(0x1000, 0)] ∧
    (armedState cb).mem = write8PA (fun _ => 0x55) 0x1000 0xCC ∧
    ((armedState cb).heap 0).targetPA = 0x1000 ∧
    ((armedState cb).heap 0).originalValue = 0x55 ∧
    ((armedState cb).heap 0).callbackFunction = cb ∧
    ((armedState cb).heap 0).targetPAString = formatHex 0x1000 ∧
    (armedState cb).singleStepCallbacks = (fun _ => none) ∧
    (armedState cb).endVmi = false ∧
    (armedState cb).user = () := by
  simp [armedState, freshState, initializeInterruptEvent, storeOriginalValue,
    setupVmiInterruptEvent, enableEvent, State.emit, State.setObject, newEvent, read8PA,
    x86Constants, PAMap.find, PAMap.insert]

theorem eventPA_trapAt0x1000 (vcpuId : Nat) (reinject : Int) :
    eventPA x86Constants (trapAt0x1000 vcpuId reinject) = 0x1000 := by
  simp [eventPA, trapAt0x1000, x86Constants]

/-- C3, at a concrete input: a trap at 0x1000 on virtual CPU 3 in the armed example
session, with a callback that returns `Continue`. -/
theorem trap_at_registered_address_witness :
    (armedState (constCallback .Continue)).interruptsByPA.find
      (eventPA x86Constants (trapAt0x1000 3 1)) = some 0 ∧
    callbacksInvoked (_defaultInterruptCallback x86Constants (trapAt0x1000 3 1)
        (armedState (constCallback .Continue))).2.trace =
      callbacksInvoked (armedState (constCallback .Continue)).trace ++ [0] := by
  have h : (armedState (constCallback .Continue)).interruptsByPA.find
      (eventPA x86Constants (trapAt0x1000 3 1)) = some 0 := by
    rw [eventPA_trapAt0x1000, (armedState_facts _).1]
    simp [PAMap.find]
  exact ⟨h, (trap_at_registered_address x86Constants (trapAt0x1000 3 1)
    (armedState (constCallback .Continue)) 0 h).1⟩

/-- C3 as stated fails: in the armed example session with a callback that throws
`std::runtime_error`, a trap at the registered address 0x1000 that arrives with
`reinject` equal to `REINJECT_INTERRUPT` is handed back unchanged, so it is not set
to `DONT_REINJECT_INTERRUPT`. -/
theorem trap_reinject_not_set_on_throw :
    (armedState (throwingCallback (.runtime_error "boom"))).interruptsByPA.find
      (eventPA x86Constants (trapAt0x1000 3 1)) = some 0 ∧
    (_defaultInterruptCallback x86Constants (trapAt0x1000 3 1)
        (armedState (throwingCallback (.runtime_error "boom")))).1 =
      .returned .VMI_EVENT_RESPONSE_NONE (trapAt0x1000 3 1) ∧
    (trapAt0x1000 3 1).reinject = x86Constants.REINJECT_INTERRUPT ∧
    (trapAt0x1000 3 1).reinject ≠ x86Constants.DONT_REINJECT_INTERRUPT := by
  have h : (armedState (throwingCallback (.runtime_error "boom"))).interruptsByPA.find
      (eventPA x86Constants (trapAt0x1000 3 1)) = some 0 := by
    rw [eventPA_trapAt0x1000, (armedState_facts _).1]
    simp [PAMap.find]
  have hf := armedState_facts (throwingCallback (.runtime_error "boom"))
  refine ⟨h, ?_, rfl, by decide⟩
  have hcb : ((armedState (throwingCallback (.runtime_error "boom"))).heap 0).callbackFunction
      (trapAt0x1000 3 1).x86_regs (armedState (throwingCallback (.runtime_error "boom"))).mem
      (armedState (throwingCallback (.runtime_error "boom"))).user =
      (.error (.runtime_error "boom"),
        (armedState (throwingCallback (.runtime_error "boom"))).mem, ()) := by
    rw [hf.2.2.2.2.1]
    rfl
  simp [_defaultInterruptCallback, h, interruptCallback_runtime_error _ _ _ _ _ _ _ hcb]

/-- C4: a trap whose decoded address is not a key of the dispatch table invokes no
user callback and is handed back with `reinject` set to `REINJECT_INTERRUPT`; guest
memory, the dispatch table, the single-step registry and the shutdown flag are
unchanged, and the only call made is the log line for the miss. -/
theorem trap_at_unregistered_address (k : BuildConstants) (event : vmi_event_t)
    (st : State σ) (hmiss : eventPA k event ∉ PAMap.keys st.interruptsByPA) :
    callbacksInvoked (_defaultInterruptCallback k event st).2.trace
      = callbacksInvoked st.trace ∧
    (_defaultInterruptCallback k event st).1 =
      .returned .VMI_EVENT_RESPONSE_NONE
        { event with reinject := k.REINJECT_INTERRUPT, insn_length := 1 } ∧
    (_defaultInterruptCallback k event st).2.mem = st.mem ∧
    (_defaultInterruptCallback k event st).2.interruptsByPA = st.interruptsByPA ∧
    (_defaultInterruptCallback k event st).2.singleStepCallbacks = st.singleStepCallbacks ∧
    (_defaultInterruptCallback k event st).2.endVmi = st.endVmi ∧
    (_defaultInterruptCallback k event st).2.trace =
      st.trace ++ [.log .debug "Reinject interrupt into guest OS"] := by
  have hnone : st.interruptsByPA.find (eventPA k event) = none := by
    cases h : st.interruptsByPA.find (eventPA k event) with
    | none => rfl
    | some v =>
      exact absurd ((PAMap.find_isSome_iff _ _).mp (by simp [h])) hmiss
  simp [_defaultInterruptCallback, hnone, State.emit, callbacksInvoked]

/-- C4, at a concrete input: a trap at 0x1000 in a session with an empty dispatch table. -/
theorem trap_at_unregistered_address_witness :
    eventPA x86Constants (trapAt0x1000 0 0) ∉
      PAMap.keys (freshState (constCallback .Continue)).interruptsByPA ∧
    (_defaultInterruptCallback x86Constants (trapAt0x1000 0 0)
        (freshState (constCallback .Continue))).1 =
      .returned .VMI_EVENT_RESPONSE_NONE
        { trapAt0x1000 0 0 with reinject := x86Constants.REINJECT_INTERRUPT, insn_length := 1 } := by
  have h : eventPA x86Constants (trapAt0x1000 0 0) ∉
      PAMap.keys (freshState (constCallback .Continue)).interruptsByPA := by
    simp [freshState, PAMap.keys]
  exact ⟨h, (trap_at_unregistered_address x86Constants (trapAt0x1000 0 0)
    (freshState (constCallback .Continue)) h).2.1⟩

/-- C5: when the user callback of an Interrupt Event with target address `a` and
saved original byte `b` returns a decision, `interruptCallback` returns and `a`
reads as `b`. If the decision is `Continue`, one `setSingleStepCallback` call is
made, for the trapping virtual CPU and bound to this event, the registry holds it
for that CPU, and running `singleStepCallback` makes `a` read as the breakpoint
encoding. If the decision is not `Continue`, no `setSingleStepCallback` call is
made and the registry is unchanged. -/
theorem trap_disarms_then_rearms (k : BuildConstants) (this : EventId) (regs : registers_t)
    (vcpuId : Nat) (st : State σ) (response : InterruptResponse) (m : Mem) (u : σ)
    (hb : (st.heap this).originalValue < 256)
    (hcb : (st.heap this).callbackFunction regs st.mem st.user = (.ok response, m, u)) :
    (interruptCallback this regs vcpuId st).1 = .ok .VMI_EVENT_RESPONSE_NONE ∧
    read8PA (interruptCallback this regs vcpuId st).2.mem (st.heap this).targetPA
      = (st.heap this).originalValue ∧
    (response = InterruptResponse.Continue →
      singleStepRegistrations (interruptCallback this regs vcpuId st).2.trace =
        singleStepRegistrations st.trace ++ [(vcpuId, this)] ∧
      (interruptCallback this regs vcpuId st).2.singleStepCallbacks vcpuId = some this ∧
      read8PA (singleStepCallback k this (interruptCallback this regs vcpuId st).2).mem
        (st.heap this).targetPA = k.INT3_BREAKPOINT) ∧
    (response ≠ InterruptResponse.Continue →
      singleStepRegistrations (interruptCallback this regs vcpuId st).2.trace =
        singleStepRegistrations st.trace ∧
      (interruptCallback this regs vcpuId st).2.singleStepCallbacks = st.singleStepCallbacks) := by
  rw [interruptCallback_returns this regs vcpuId st response m u hcb]
  have hbp := Nat.mod_eq_of_lt k.INT3_BREAKPOINT_is_uint8
  have hbb := Nat.mod_eq_of_lt hb
  by_cases hc : response = InterruptResponse.Continue
  · simp [hc, trapPrologue, State.emit, setSingleStepCallback, disableEvent, singleStepCallback,
      enableEvent, singleStepRegistrations, read8PA, write8PA, hbp, hbb]
  · simp [hc, trapPrologue, State.emit, disableEvent, singleStepRegistrations, read8PA,
      write8PA, hbb]

/-- C5, at a concrete input: the armed example session, trap on virtual CPU 3,
callback returning `Continue`. -/
theorem trap_disarms_then_rearms_witness :
    ((armedState (constCallback .Continue)).heap 0).originalValue < 256 ∧
    ((armedState (constCallback .Continue)).heap 0).callbackFunction ⟨0⟩
        (armedState (constCallback .Continue)).mem (armedState (constCallback .Continue)).user
      = (.ok .Continue, (armedState (constCallback .Continue)).mem, ()) ∧
    read8PA (interruptCallback 0 ⟨0⟩ 3 (armedState (constCallback .Continue))).2.mem
      ((armedState (constCallback .Continue)).heap 0).targetPA
      = ((armedState (constCallback .Continue)).heap 0).originalValue := by
  have hf := armedState_facts (constCallback .Continue)
  have h1 : ((armedState (constCallback .Continue)).heap 0).originalValue < 256 := by
    rw [hf.2.2.2.1]; decide
  have h2 : ((armedState (constCallback .Continue)).heap 0).callbackFunction ⟨0⟩
      (armedState (constCallback .Continue)).mem (armedState (constCallback .Continue)).user
      = (.ok .Continue, (armedState (constCallback .Continue)).mem, ()) := by
    rw [hf.2.2.2.2.1]; rfl
  exact ⟨h1, h2, (trap_disarms_then_rearms x86Constants 0 ⟨0⟩ 3
    (armedState (constCallback .Continue)) .Continue _ () h1 h2).2.1⟩

/-- The state the trap handler leaves when the callback of the registered event
returns `Continue`. -/
theorem defaultInterruptCallback_continue (k : BuildConstants) (event : vmi_event_t)
    (st : State σ) (this : EventId) (m : Mem) (u : σ)
    (hreg : st.interruptsByPA.find (eventPA k event) = some this)
    (hcb : (st.heap this).callbackFunction event.x86_regs st.mem st.user
      = (.ok .Continue, m, u)) :
    (_defaultInterruptCallback k event st).2 =
      setSingleStepCallback event.vcpu_id this
        (disableEvent this { trapPrologue this st with mem := m, user := u }) := by
  simp [_defaultInterruptCallback, hreg, interruptCallback_returns _ _ _ _ _ _ _ hcb]

/-- C6 (amended): with an Interrupt Event registered at 0x1000 whose saved original
byte is 0x55, a trap at 0x1000 whose user callback returns `Continue` makes exactly
one `setSingleStepCallback` call, for the trap's virtual CPU; when the handler
returns, 0x1000 reads 0x55, and after the scheduled `singleStepCallback` has run it
reads the breakpoint encoding. -/
theorem scenario_trap_at_0x1000 (k : BuildConstants) (event : vmi_event_t) (st : State σ)
    (this : EventId) (m : Mem) (u : σ)
    (haddr : eventPA k event = 0x1000)
    (hreg : st.interruptsByPA.find 0x1000 = some this)
    (htarget : (st.heap this).targetPA = 0x1000)
    (horig : (st.heap this).originalValue = 0x55)
    (hcb : (st.heap this).callbackFunction event.x86_regs st.mem st.user
      = (.ok .Continue, m, u)) :
    singleStepRegistrations (_defaultInterruptCallback k event st).2.trace =
      singleStepRegistrations st.trace ++ [(event.vcpu_id, this)] ∧
    (_defaultInterruptCallback k event st).2.singleStepCallbacks event.vcpu_id = some this ∧
    read8PA (_defaultInterruptCallback k event st).2.mem 0x1000 = 0x55 ∧
    read8PA (singleStepCallback k this (_defaultInterruptCallback k event st).2).mem 0x1000
      = k.INT3_BREAKPOINT := by
  have hbp := Nat.mod_eq_of_lt k.INT3_BREAKPOINT_is_uint8
  rw [defaultInterruptCallback_continue k event st this m u (haddr ▸ hreg) hcb]
  refine ⟨?_, ?_, ?_, ?_⟩
  · simp [trapPrologue, State.emit, setSingleStepCallback, disableEvent,
      singleStepRegistrations]
  · simp [setSingleStepCallback]
  · simp [trapPrologue, State.emit, setSingleStepCallback, disableEvent, read8PA, write8PA,
      htarget, horig]
  · simp [trapPrologue, State.emit, setSingleStepCallback, disableEvent, singleStepCallback,
      enableEvent, read8PA, write8PA, hbp, htarget]

/-- C6, at a concrete input: the armed example session and a trap on virtual CPU 3. -/
theorem scenario_trap_at_0x1000_witness :
    eventPA x86Constants (trapAt0x1000 3 0) = 0x1000 ∧
    (armedState (constCallback .Continue)).interruptsByPA.find 0x1000 = some 0 ∧
    ((armedState (constCallback .Continue)).heap 0).targetPA = 0x1000 ∧
    ((armedState (constCallback .Continue)).heap 0).originalValue = 0x55 ∧
    singleStepRegistrations (_defaultInterruptCallback x86Constants (trapAt0x1000 3 0)
        (armedState (constCallback .Continue))).2.trace =
      singleStepRegistrations (armedState (constCallback .Continue)).trace ++ [(3, 0)] := by
  have hf := armedState_facts (constCallback .Continue)
  have h1 := eventPA_trapAt0x1000 3 0
  have h2 : (armedState (constCallback .Continue)).interruptsByPA.find 0x1000 = some 0 := by
    rw [hf.1]; simp [PAMap.find]
  have h5 : ((armedState (constCallback .Continue)).heap 0).callbackFunction
      (trapAt0x1000 3 0).x86_regs (armedState (constCallback .Continue)).mem
      (armedState (constCallback .Continue)).user
      = (.ok .Continue, (armedState (constCallback .Continue)).mem, ()) := by
    rw [hf.2.2.2.2.1]; rfl
  exact ⟨h1, h2, hf.2.2.1, hf.2.2.2.1, (scenario_trap_at_0x1000 x86Constants (trapAt0x1000 3 0)
    (armedState (constCallback .Continue)) 0 _ () h1 h2 hf.2.2.1 hf.2.2.2.1 h5).1⟩

/-- C6 as stated fails: in the armed example session (0x1000 originally 0x55), after
the trap on virtual CPU 3 with a `Continue` callback and after the scheduled
`singleStepCallback` has run, 0x1000 reads 0xCC, not 0x55. -/
theorem scenario_reads_breakpoint_after_single_step :
    read8PA (freshState (constCallback .Continue)).mem 0x1000 = 0x55 ∧
    (_defaultInterruptCallback x86Constants (trapAt0x1000 3 0)
        (armedState (constCallback .Continue))).2.singleStepCallbacks 3 = some 0 ∧
    read8PA (singleStepCallback x86Constants 0
        (_defaultInterruptCallback x86Constants (trapAt0x1000 3 0)
          (armedState (constCallback .Continue))).2).mem 0x1000 = 0xCC ∧
    read8PA (singleStepCallback x86Constants 0
        (_defaultInterruptCallback x86Constants (trapAt0x1000 3 0)
          (armedState (constCallback .Continue))).2).mem 0x1000 ≠ 0x55 := by
  have hf := armedState_facts (constCallback .Continue)
  have h2 : (armedState (constCallback .Continue)).interruptsByPA.find 0x1000 = some 0 := by
    rw [hf.1]; simp [PAMap.find]
  have h5 : ((armedState (constCallback .Continue)).heap 0).callbackFunction
      (trapAt0x1000 3 0).x86_regs (armedState (constCallback .Continue)).mem
      (armedState (constCallback .Continue)).user
      = (.ok .Continue, (armedState (constCallback .Continue)).mem, ()) := by
    rw [hf.2.2.2.2.1]; rfl
  have hstate := defaultInterruptCallback_continue x86Constants (trapAt0x1000 3 0)
    (armedState (constCallback .Continue)) 0 _ ()
    ((eventPA_trapAt0x1000 3 0).symm ▸ h2) h5
  have hread : read8PA (singleStepCallback x86Constants 0
      (_defaultInterruptCallback x86Constants (trapAt0x1000 3 0)
        (armedState (constCallback .Continue))).2).mem 0x1000 = 0xCC := by
    rw [hstate]
    simp [trapPrologue, State.emit, setSingleStepCallback, disableEvent, singleStepCallback,
      enableEvent, read8PA, write8PA, hf.2.2.1, x86Constants]
  refine ⟨by simp [freshState, read8PA], ?_, hread, ?_⟩
  · rw [hstate]
    simp [setSingleStepCallback, trapAt0x1000]
  · rw [hread]
    decide

theorem occursIn_suffix (pre part : String) : occursIn part (pre ++ part) := by
  refine ⟨pre.data, [], ?_⟩
  simp [String.data_append]

/-- What the trap handler does when the user callback throws, by kind of exception. -/
theorem trap_handler_on_throw (k : BuildConstants) (event : vmi_event_t) (st : State σ)
    (this : EventId) (hreg : st.interruptsByPA.find (eventPA k event) = some this) :
    (∀ what m u,
      (st.heap this).callbackFunction event.x86_regs st.mem st.user
          = (.error (.runtime_error what), m, u) →
        (interruptCallback this event.x86_regs event.vcpu_id st).1 =
          .error (.runtime_error ("interruptCallback: " ++ what ++
            " Target physical address = " ++ (st.heap this).targetPAString)) ∧
        (_defaultInterruptCallback k event st).1 = .returned .VMI_EVENT_RESPONSE_NONE event ∧
        (_defaultInterruptCallback k event st).2.endVmi = true ∧
        errorEventsSent (_defaultInterruptCallback k event st).2.trace =
          errorEventsSent st.trace ++ ["interruptCallback: " ++ what ++
            " Target physical address = " ++ (st.heap this).targetPAString]) ∧
    (∀ what m u,
      (st.heap this).callbackFunction event.x86_regs st.mem st.user
          = (.error (.exception what), m, u) →
        (interruptCallback this event.x86_regs event.vcpu_id st).1 = .error (.exception what) ∧
        (_defaultInterruptCallback k event st).1 = .returned .VMI_EVENT_RESPONSE_NONE event ∧
        (_defaultInterruptCallback k event st).2.endVmi = true ∧
        errorEventsSent (_defaultInterruptCallback k event st).2.trace =
          errorEventsSent st.trace ++ [what]) ∧
    (∀ m u,
      (st.heap this).callbackFunction event.x86_regs st.mem st.user = (.error .foreign, m, u) →
        (_defaultInterruptCallback k event st).1 = .escaped .foreign) := by
  refine ⟨?_, ?_, ?_⟩
  · intro what m u hcb
    simp [_defaultInterruptCallback, hreg, interruptCallback_runtime_error _ _ _ _ _ _ _ hcb,
      trapPrologue, State.emit, errorEventsSent]
  · intro what m u hcb
    simp [_defaultInterruptCallback, hreg, interruptCallback_exception _ _ _ _ _ _ _ hcb,
      trapPrologue, State.emit, errorEventsSent]
  · intro m u hcb
    simp [_defaultInterruptCallback, hreg, interruptCallback_foreign _ _ _ _ _ _ hcb]

/-- C7 (amended): for a trap at an address registered to an event armed by
`initialize` (its `targetPAString` is the formatted target address): when the user
callback throws a `std::runtime_error`, the exception leaving `interruptCallback`
is a `std::runtime_error` whose message contains the target address; the trap
handler catches it, sets `endVmi`, sends one error event carrying that message and
returns `VMI_EVENT_RESPONSE_NONE` to the driver. When the callback throws another
exception derived from `std::exception`, the exception leaves `interruptCallback`
unchanged and the handler treats it the same way, with the original message. An
exception of any other type is not caught by the handler. -/
theorem trap_callback_throws (k : BuildConstants) (event : vmi_event_t) (st : State σ)
    (this : EventId) (hreg : st.interruptsByPA.find (eventPA k event) = some this)
    (hstr : (st.heap this).targetPAString = formatHex (st.heap this).targetPA) :
    (∀ what m u,
      (st.heap this).callbackFunction event.x86_regs st.mem st.user
          = (.error (.runtime_error what), m, u) →
        ∃ message,
          (interruptCallback this event.x86_regs event.vcpu_id st).1 =
            .error (.runtime_error message) ∧
          occursIn (formatHex (st.heap this).targetPA) message ∧
          (_defaultInterruptCallback k event st).1 = .returned .VMI_EVENT_RESPONSE_NONE event ∧
          (_defaultInterruptCallback k event st).2.endVmi = true ∧
          errorEventsSent (_defaultInterruptCallback k event st).2.trace =
            errorEventsSent st.trace ++ [message]) ∧
    (∀ what m u,
      (st.heap this).callbackFunction event.x86_regs st.mem st.user
          = (.error (.exception what), m, u) →
        (interruptCallback this event.x86_regs event.vcpu_id st).1 = .error (.exception what) ∧
        (_defaultInterruptCallback k event st).1 = .returned .VMI_EVENT_RESPONSE_NONE event ∧
        (_defaultInterruptCallback k event st).2.endVmi = true ∧
        errorEventsSent (_defaultInterruptCallback k event st).2.trace =
          errorEventsSent st.trace ++ [what]) ∧
    (∀ m u,
      (st.heap this).callbackFunction event.x86_regs st.mem st.user = (.error .foreign, m, u) →
        (_defaultInterruptCallback k event st).1 = .escaped .foreign) := by
  have h := trap_handler_on_throw k event st this hreg
  refine ⟨?_, h.2.1, h.2.2⟩
  intro what m u hcb
  have h1 := h.1 what m u hcb
  refine ⟨_, h1.1, ?_, h1.2.1, h1.2.2.1, h1.2.2.2⟩
  rw [hstr]
  exact occursIn_suffix _ _

/-- C7, at a concrete input: the armed example session with a callback that throws
`std::runtime_error("boom")`, trap at 0x1000. -/
theorem trap_callback_throws_witness :
    (armedState (throwingCallback (.runtime_error "boom"))).interruptsByPA.find
      (eventPA x86Constants (trapAt0x1000 3 0)) = some 0 ∧
    ((armedState (throwingCallback (.runtime_error "boom"))).heap 0).targetPAString =
      formatHex ((armedState (throwingCallback (.runtime_error "boom"))).heap 0).targetPA ∧
    ∃ message,
      (interruptCallback 0 (trapAt0x1000 3 0).x86_regs (trapAt0x1000 3 0).vcpu_id
        (armedState (throwingCallback (.runtime_error "boom")))).1 =
          .error (.runtime_error message) ∧
      occursIn (formatHex ((armedState (throwingCallback (.runtime_error "boom"))).heap 0).targetPA)
        message ∧
      (_defaultInterruptCallback x86Constants (trapAt0x1000 3 0)
        (armedState (throwingCallback (.runtime_error "boom")))).1 =
          .returned .VMI_EVENT_RESPONSE_NONE (trapAt0x1000 3 0) ∧
      (_defaultInterruptCallback x86Constants (trapAt0x1000 3 0)
        (armedState (throwingCallback (.runtime_error "boom")))).2.endVmi = true ∧
      errorEventsSent (_defaultInterruptCallback x86Constants (trapAt0x1000 3 0)
        (armedState (throwingCallback (.runtime_error "boom")))).2.trace =
        errorEventsSent (armedState (throwingCallback (.runtime_error "boom"))).trace
          ++ [message] := by
  have hf := armedState_facts (throwingCallback (.runtime_error "boom"))
  have h1 : (armedState (throwingCallback (.runtime_error "boom"))).interruptsByPA.find
      (eventPA x86Constants (trapAt0x1000 3 0)) = some 0 := by
    rw [eventPA_trapAt0x1000, hf.1]; simp [PAMap.find]
  have h2 : ((armedState (throwingCallback (.runtime_error "boom"))).heap 0).targetPAString =
      formatHex ((armedState (throwingCallback (.runtime_error "boom"))).heap 0).targetPA := by
    rw [hf.2.2.2.2.2.1, hf.2.2.1]
  have hcb : ((armedState (throwingCallback (.runtime_error "boom"))).heap 0).callbackFunction
      (trapAt0x1000 3 0).x86_regs (armedState (throwingCallback (.runtime_error "boom"))).mem
      (armedState (throwingCallback (.runtime_error "boom"))).user =
      (.error (.runtime_error "boom"),
        (armedState (throwingCallback (.runtime_error "boom"))).mem, ()) := by
    rw [hf.2.2.2.2.1]; rfl
  exact ⟨h1, h2, (trap_callback_throws x86Constants (trapAt0x1000 3 0)
    (armedState (throwingCallback (.runtime_error "boom"))) 0 h1 h2).1 "boom" _ () hcb⟩

/-- C7 as stated fails for exceptions that are not `std::runtime_error`: in the
armed example session a callback throwing another `std::exception` with message
"boom" leaves `interruptCallback` unwrapped, its message does not contain the
target address 0x1000; and a thrown object that is not a `std::exception` leaves
the trap handler, crossing into the driver. -/
theorem trap_callback_throws_not_wrapped :
    (armedState (throwingCallback (.exception "boom"))).interruptsByPA.find
      (eventPA x86Constants (trapAt0x1000 3 0)) = some 0 ∧
    (interruptCallback 0 (trapAt0x1000 3 0).x86_regs (trapAt0x1000 3 0).vcpu_id
      (armedState (throwingCallback (.exception "boom")))).1 = .error (.exception "boom") ∧
    ¬ occursIn (formatHex 0x1000) "boom" ∧
    (armedState (throwingCallback .foreign)).interruptsByPA.find
      (eventPA x86Constants (trapAt0x1000 3 0)) = some 0 ∧
    (_defaultInterruptCallback x86Constants (trapAt0x1000 3 0)
      (armedState (throwingCallback .foreign))).1 = .escaped .foreign := by
  have hfind : ∀ cb : Callback Unit, (armedState cb).interruptsByPA.find
      (eventPA x86Constants (trapAt0x1000 3 0)) = some 0 := by
    intro cb
    rw [eventPA_trapAt0x1000, (armedState_facts cb).1]; simp [PAMap.find]
  have hcb1 : ((armedState (throwingCallback (.exception "boom"))).heap 0).callbackFunction
      (trapAt0x1000 3 0).x86_regs (armedState (throwingCallback (.exception "boom"))).mem
      (armedState (throwingCallback (.exception "boom"))).user =
      (.error (.exception "boom"), (armedState (throwingCallback (.exception "boom"))).mem, ()) := by
    rw [(armedState_facts _).2.2.2.2.1]; rfl
  have hcb2 : ((armedState (throwingCallback .foreign)).heap 0).callbackFunction
      (trapAt0x1000 3 0).x86_regs (armedState (throwingCallback .foreign)).mem
      (armedState (throwingCallback .foreign)).user =
      (.error .foreign, (armedState (throwingCallback .foreign)).mem, ()) := by
    rw [(armedState_facts _).2.2.2.2.1]; rfl
  refine ⟨hfind _, ?_, ?_, hfind _, ?_⟩
  · exact ((trap_handler_on_throw x86Constants (trapAt0x1000 3 0) _ 0 (hfind _)).2.1
      "boom" _ () hcb1).1
  · decide
  · exact (trap_handler_on_throw x86Constants (trapAt0x1000 3 0) _ 0 (hfind _)).2.2 _ () hcb2

end Traps

/-! ## Process-lifecycle supervision -/

/-- C8: when the registry holds a record for the base in `rdi`,
`procExitConnectorCallback` returns `Continue`, delivers exactly one termination
notice, carrying that record, at a moment when the registry still contains it, and
afterwards the registry holds exactly the records it held before whose base is
different. Starting from an empty registry, fork notifications for two distinct
bases `A` and `B` followed by an exit for `A` leave exactly the record of `B` in
the registry and add exactly one termination notice, for the record of `A`. -/
theorem exit_notifies_then_removes :
    (∀ (regs : registers_t) (mem : Mem) (s : SupervisorState)
        (record : ActiveProcessInformation),
      getProcessInformationByBase s regs.rdi = some record →
        (procExitConnectorCallback regs mem s).1 = .ok InterruptResponse.Continue ∧
        (procExitConnectorCallback regs mem s).2.2.terminationNotices =
          s.terminationNotices ++ [⟨record, s.processes⟩] ∧
        record ∈ s.processes ∧
        record.base = regs.rdi ∧
        (∀ p, p ∈ (procExitConnectorCallback regs mem s).2.2.processes ↔
          (p ∈ s.processes ∧ p.base ≠ regs.rdi))) ∧
    (∀ (A B : Nat) (mem : Mem) (s : SupervisorState), A ≠ B → s.processes = [] →
      (procExitConnectorCallback ⟨A⟩ mem
        (procForkConnectorCallback ⟨B⟩ mem
          (procForkConnectorCallback ⟨A⟩ mem s).2.2).2.2).2.2.processes =
        [{ base := B, pid := (s.guestTasks B).1, name := (s.guestTasks B).2 }] ∧
      (procExitConnectorCallback ⟨A⟩ mem
        (procForkConnectorCallback ⟨B⟩ mem
          (procForkConnectorCallback ⟨A⟩ mem s).2.2).2.2).2.2.terminationNotices =
        s.terminationNotices ++
          [⟨{ base := A, pid := (s.guestTasks A).1, name := (s.guestTasks A).2 },
            [{ base := A, pid := (s.guestTasks A).1, name := (s.guestTasks A).2 },
             { base := B, pid := (s.guestTasks B).1, name := (s.guestTasks B).2 }]⟩]) := by
  refine ⟨?_, ?_⟩
  · intro regs mem s record hget
    have hmem : record ∈ s.processes := List.mem_of_find?_eq_some hget
    have hbase : record.base = regs.rdi := by
      have := List.find?_some hget
      simpa using this
    refine ⟨rfl, ?_, hmem, hbase, ?_⟩
    · simp [procExitConnectorCallback, hget, passProcessTerminationEventToRegisteredPlugins,
        removeActiveProcess]
    · intro p
      simp [procExitConnectorCallback, hget, passProcessTerminationEventToRegisteredPlugins,
        removeActiveProcess]
  · intro A B mem s hAB hs
    have hBA : ¬ B = A := fun h => hAB h.symm
    simp [procExitConnectorCallback, procForkConnectorCallback, addNewProcess,
      getProcessInformationByBase, passProcessTerminationEventToRegisteredPlugins,
      removeActiveProcess, hs, hAB, hBA]

/-- C8, at a concrete input: forks for bases 0x10 and 0x20, then an exit for 0x10,
from the empty example registry. -/
theorem exit_notifies_then_removes_witness :
    (0x10 : Nat) ≠ 0x20 ∧ emptySupervisorState.processes = [] ∧
    (procExitConnectorCallback ⟨0x10⟩ (fun _ => 0)
      (procForkConnectorCallback ⟨0x20⟩ (fun _ => 0)
        (procForkConnectorCallback ⟨0x10⟩ (fun _ => 0) emptySupervisorState).2.2).2.2).2.2.processes
      = [{ base := 0x20, pid := 0x21, name := "task" }] := by
  exact ⟨by decide, rfl,
    (exit_notifies_then_removes.2 0x10 0x20 (fun _ => 0) emptySupervisorState (by decide) rfl).1⟩

/-! ## The session loop -/

theorem waitCalls_emit (s : Session) (c : HubCall) (h : c ≠ HubCall.waitForEvent) :
    waitCalls (s.emit c).trace = waitCalls s.trace := by
  simp [waitCalls, Session.emit, List.count_append, List.count_cons, h]

theorem externalInterruptHandler_facts (signal : Int) (s : Session) :
    (externalInterruptHandler signal s).exitCode = 128 + signal ∧
    (externalInterruptHandler signal s).endVmi = true ∧
    (externalInterruptHandler signal s).postRunPluginAction = s.postRunPluginAction ∧
    waitCalls (externalInterruptHandler signal s).trace = waitCalls s.trace := by
  unfold externalInterruptHandler logReceivedSignal
  refine ⟨?_, rfl, ?_, ?_⟩
  · simp only []
    split_ifs <;> rfl
  · simp only []
    split_ifs <;> rfl
  · simp only []
    split_ifs <;> simp [waitCalls, Session.emit, List.count_append, List.count_cons]

theorem signals_fold_facts (signals : List Int) (s : Session) :
    (signals.foldl (fun s signal => externalInterruptHandler signal s) s).postRunPluginAction
      = s.postRunPluginAction ∧
    waitCalls (signals.foldl (fun s signal => externalInterruptHandler signal s) s).trace
      = waitCalls s.trace := by
  induction signals generalizing s with
  | nil => exact ⟨rfl, rfl⟩
  | cons x xs ih =>
    have h := externalInterruptHandler_facts x s
    have h2 := ih (externalInterruptHandler x s)
    simp only [List.foldl_cons]
    exact ⟨h2.1.trans h.2.2.1, h2.2.trans h.2.2.2⟩

theorem waitLoop_exited (script : List WaitCall) (s : Session) (h : s.endVmi = true) :
    waitLoop script s = (.exited, s) := by
  cases script <;> simp [waitLoop, h]

theorem waitForEventCall_quiet (c : WaitCall) (s : Session) (h : c.quiet) :
    waitForEventCall c s = s.emit .waitForEvent := by
  obtain ⟨h1, h2, h3⟩ := h
  simp [waitForEventCall, h1, h2, h3]

theorem waitLoop_quiet_calls (before rest : List WaitCall) (s : Session)
    (hrun : s.endVmi = false) (hquiet : ∀ c ∈ before, c.quiet) :
    waitLoop (before ++ rest) s =
      waitLoop rest
        { s with trace := s.trace ++ List.replicate before.length HubCall.waitForEvent } := by
  induction before generalizing s with
  | nil => simp
  | cons c cs ih =>
    have hc : c.quiet := hquiet c (List.mem_cons_self _ _)
    have hcs : ∀ d ∈ cs, d.quiet := fun d hd => hquiet d (List.mem_cons_of_mem _ hd)
    simp only [List.cons_append, waitLoop, hrun, Bool.false_eq_true, if_false]
    rw [waitForEventCall_quiet c s hc]
    refine Eq.trans (ih (s.emit .waitForEvent) (by simpa [Session.emit] using hrun) hcs) ?_
    simp [Session.emit, List.replicate_succ, hrun]

theorem plugins_fold_facts (plugins : List String) (s : Session) :
    (plugins.foldl (fun s name => s.emit (.initializePlugin name)) s).endVmi = s.endVmi ∧
    (plugins.foldl (fun s name => s.emit (.initializePlugin name)) s).exitCode = s.exitCode ∧
    (plugins.foldl (fun s name => s.emit (.initializePlugin name)) s).postRunPluginAction
      = s.postRunPluginAction ∧
    waitCalls (plugins.foldl (fun s name => s.emit (.initializePlugin name)) s).trace
      = waitCalls s.trace := by
  induction plugins generalizing s with
  | nil => exact ⟨rfl, rfl, rfl, rfl⟩
  | cons x xs ih =>
    have h := ih (s.emit (.initializePlugin x))
    simp only [List.foldl_cons]
    refine ⟨h.1, h.2.1, h.2.2.1, h.2.2.2.trans ?_⟩
    exact waitCalls_emit s _ (by simp)

theorem startupSession_facts (env : Environment) (s : Session) :
    (startupSession env s).endVmi = s.endVmi ∧
    (startupSession env s).exitCode = s.exitCode ∧
    waitCalls (startupSession env s).trace = waitCalls s.trace := by
  have h := plugins_fold_facts env.plugins ((s.emit .initializeVmi).emit .getOsType)
  refine ⟨?_, ?_, ?_⟩
  · simpa [startupSession, Session.emit] using h.1
  · simpa [startupSession, Session.emit] using h.2.1
  · have h4 := h.2.2.2
    simp only [startupSession]
    rw [waitCalls_emit _ _ (by simp), waitCalls_emit _ _ (by simp), waitCalls_emit _ _ (by simp),
      waitCalls_emit _ _ (by simp), waitCalls_emit _ _ (by simp), waitCalls_emit _ _ (by simp),
      h4, waitCalls_emit _ _ (by simp), waitCalls_emit _ _ (by simp)]

theorem run_of_exited (env : Environment) (s s1 : Session)
    (hos : env.osType ≠ os_t.VMI_OS_UNKNOWN)
    (h1 : env.sigactionSIGINT = 0) (h2 : env.sigactionSIGTERM = 0)
    (hloop : waitLoop env.script { startupSession env s with postRunPluginAction := true }
      = (.exited, s1)) :
    (run env s).1 = .returned (s1.exitCode % 2 ^ 32).toNat ∧
    (run env s).2.endVmi = s1.endVmi ∧
    (run env s).2.exitCode = s1.exitCode ∧
    waitCalls (run env s).2.trace = waitCalls s1.trace := by
  have hrun : run env s =
      (.returned (s1.exitCode % 2 ^ 32).toNat,
        (if s1.postRunPluginAction then performShutdownPluginAction s1 else s1).emit
          .systemEventSupervisorTeardown) := by
    have hw : waitForEvents env.script (startupSession env s) = (.exited, s1) := hloop
    unfold startupSession at hw
    cases hosv : env.osType with
    | VMI_OS_UNKNOWN => exact absurd hosv hos
    | VMI_OS_LINUX =>
      simp only [run, hosv, setupSignalHandling, h1, h2, ne_eq, not_true_eq_false, if_false, hw]
      split_ifs <;> simp [performShutdownPluginAction, Session.emit]
    | VMI_OS_WINDOWS =>
      simp only [run, hosv, setupSignalHandling, h1, h2, ne_eq, not_true_eq_false, if_false, hw]
      split_ifs <;> simp [performShutdownPluginAction, Session.emit]
  rw [hrun]
  refine ⟨rfl, ?_, ?_, ?_⟩
  · split_ifs <;> simp [performShutdownPluginAction, Session.emit]
  · split_ifs <;> simp [performShutdownPluginAction, Session.emit]
  · split_ifs <;>
      simp [performShutdownPluginAction, Session.emit, waitCalls, List.count_append,
        List.count_cons]

theorem waitForEventCall_last_signal (c : WaitCall) (s : Session) (earlier : List Int)
    (signal : Int) (hsig : c.signals = earlier ++ [signal]) (hthrow : c.throws = none) :
    (waitForEventCall c s).exitCode = 128 + signal ∧
    (waitForEventCall c s).endVmi = true ∧
    waitCalls (waitForEventCall c s).trace = waitCalls s.trace + 1 := by
  have hfold := signals_fold_facts earlier (s.emit .waitForEvent)
  have hlast := externalInterruptHandler_facts signal
    (earlier.foldl (fun s signal => externalInterruptHandler signal s) (s.emit .waitForEvent))
  have hcount : waitCalls (s.emit .waitForEvent).trace = waitCalls s.trace + 1 := by
    simp [waitCalls, Session.emit, List.count_append]
  simp only [waitForEventCall, hsig, hthrow, List.foldl_append, List.foldl_cons, List.foldl_nil]
  refine ⟨?_, ?_, ?_⟩
  · split_ifs
    · exact hlast.1
    · exact hlast.1
  · split_ifs
    · rfl
    · exact hlast.2.1
  · split_ifs
    · exact (hlast.2.2.2.trans hfold.2).trans hcount
    · exact (hlast.2.2.2.trans hfold.2).trans hcount

theorem waitForEventCall_callback_ends (c : WaitCall) (s : Session)
    (hsig : c.signals = []) (hthrow : c.throws = none) (hend : c.callbackEndsVmi = true) :
    waitForEventCall c s = { s.emit .waitForEvent with endVmi := true } := by
  simp [waitForEventCall, hsig, hthrow, hend]

theorem waitLoop_until_final (before rest : List WaitCall) (final : WaitCall) (s : Session)
    (hrun : s.endVmi = false) (hquiet : ∀ c ∈ before, c.quiet)
    (hends : ∀ t : Session, (waitForEventCall final t).endVmi = true) :
    waitLoop (before ++ final :: rest) s =
      (.exited, waitForEventCall final
        { s with trace := s.trace ++ List.replicate before.length HubCall.waitForEvent }) := by
  rw [waitLoop_quiet_calls before (final :: rest) s hrun hquiet]
  simp only [waitLoop, hrun, Bool.false_eq_true, if_false]
  exact waitLoop_exited _ _ (hends _)

theorem waitCalls_replicate (t : List HubCall) (n : Nat) :
    waitCalls (t ++ List.replicate n HubCall.waitForEvent) = waitCalls t + n := by
  simp [waitCalls, List.count_append, List.count_replicate_self]

/-- C9: in an execution of `run` for a supported guest OS with both `sigaction`
calls successful in which the wait loop is entered with the shutdown flag clear:
when, after any number of uneventful `waitForEvent` calls, a call during which
signal `s` (SIGINT or SIGTERM) is the last signal delivered ends without throwing,
`run` returns `128 + s`, the shutdown flag is set and that call is the last
`waitForEvent` call, whatever the driver would have done next. When instead the
shutdown flag is set by a callback inside a call during which no signal arrives and
which does not throw, or is already set when the loop is entered, and the exit
status is still the initial 0, `run` returns 0. -/
theorem signal_exit_status :
    (∀ (env : Environment) (s0 : Session) (before rest : List WaitCall) (final : WaitCall)
        (earlier : List Int) (signal : Int),
      env.osType ≠ os_t.VMI_OS_UNKNOWN → env.sigactionSIGINT = 0 → env.sigactionSIGTERM = 0 →
      s0.endVmi = false →
      env.script = before ++ final :: rest → (∀ c ∈ before, c.quiet) →
      (signal = SIGINT ∨ signal = SIGTERM) →
      final.signals = earlier ++ [signal] → final.throws = none →
        (run env s0).1 = .returned (128 + signal).toNat ∧
        (run env s0).2.endVmi = true ∧
        waitCalls (run env s0).2.trace = waitCalls s0.trace + before.length + 1) ∧
    (∀ (env : Environment) (s0 : Session) (before rest : List WaitCall) (final : WaitCall),
      env.osType ≠ os_t.VMI_OS_UNKNOWN → env.sigactionSIGINT = 0 → env.sigactionSIGTERM = 0 →
      s0.endVmi = false → s0.exitCode = 0 →
      env.script = before ++ final :: rest → (∀ c ∈ before, c.quiet) →
      final.signals = [] → final.throws = none → final.callbackEndsVmi = true →
        (run env s0).1 = .returned 0 ∧
        waitCalls (run env s0).2.trace = waitCalls s0.trace + before.length + 1) ∧
    (∀ (env : Environment) (s0 : Session),
      env.osType ≠ os_t.VMI_OS_UNKNOWN → env.sigactionSIGINT = 0 → env.sigactionSIGTERM = 0 →
      s0.endVmi = true → s0.exitCode = 0 →
        (run env s0).1 = .returned 0 ∧
        waitCalls (run env s0).2.trace = waitCalls s0.trace) := by
  refine ⟨?_, ?_, ?_⟩
  · intro env s0 before rest final earlier signal hos h1 h2 hstart hscript hquiet hsig hfinal
      hthrow
    have hst := startupSession_facts env s0
    have hloop : waitLoop env.script { startupSession env s0 with postRunPluginAction := true } =
        (.exited, waitForEventCall final
          { ({ startupSession env s0 with postRunPluginAction := true } : Session) with
            trace := (startupSession env s0).trace ++
              List.replicate before.length HubCall.waitForEvent }) := by
      rw [hscript]
      exact waitLoop_until_final before rest final _ (by simpa using hst.1.trans hstart) hquiet
        (fun t => (waitForEventCall_last_signal final t earlier signal hfinal hthrow).2.1)
    have hrun := run_of_exited env s0 _ hos h1 h2 hloop
    have hcall := waitForEventCall_last_signal final
      { ({ startupSession env s0 with postRunPluginAction := true } : Session) with
        trace := (startupSession env s0).trace ++
          List.replicate before.length HubCall.waitForEvent } earlier signal hfinal hthrow
    refine ⟨?_, hrun.2.1.trans hcall.2.1, ?_⟩
    · rw [hrun.1, hcall.1]
      rcases hsig with h | h <;> subst h <;> decide
    · rw [hrun.2.2.2, hcall.2.2, waitCalls_replicate, hst.2.2]
  · intro env s0 before rest final hos h1 h2 hstart hexit hscript hquiet hsig hthrow hend
    have hst := startupSession_facts env s0
    have hloop : waitLoop env.script { startupSession env s0 with postRunPluginAction := true } =
        (.exited, waitForEventCall final
          { ({ startupSession env s0 with postRunPluginAction := true } : Session) with
            trace := (startupSession env s0).trace ++
              List.replicate before.length HubCall.waitForEvent }) := by
      rw [hscript]
      refine waitLoop_until_final before rest final _ (by simpa using hst.1.trans hstart) hquiet
        (fun t => ?_)
      rw [waitForEventCall_callback_ends final t hsig hthrow hend]
    have hrun := run_of_exited env s0 _ hos h1 h2 hloop
    rw [waitForEventCall_callback_ends final _ hsig hthrow hend] at hrun
    refine ⟨?_, ?_⟩
    · rw [hrun.1]
      simp [Session.emit, hst.2.1, hexit]
    · rw [hrun.2.2.2]
      have := waitCalls_replicate (startupSession env s0).trace before.length
      simp only [Session.emit, waitCalls, List.count_append] at this ⊢
      simp [List.count_replicate_self] at this ⊢
      have h3 := hst.2.2
      simp only [waitCalls] at h3
      omega
  · intro env s0 hos h1 h2 hstart hexit
    have hst := startupSession_facts env s0
    have hloop : waitLoop env.script { startupSession env s0 with postRunPluginAction := true } =
        (.exited, { startupSession env s0 with postRunPluginAction := true }) :=
      waitLoop_exited _ _ (by simpa using hst.1.trans hstart)
    have hrun := run_of_exited env s0 _ hos h1 h2 hloop
    refine ⟨?_, ?_⟩
    · rw [hrun.1]
      simp [hst.2.1, hexit]
    · rw [hrun.2.2.2]
      exact hst.2.2

/-- C9, at a concrete input: a Linux session from the initial state, two uneventful
`waitForEvent` calls, then a call during which signal 2 arrives; `run` returns 130
and makes no fourth call although the script has one. -/
theorem signal_exit_status_witness :
    (linuxEnvironment [⟨[], false, none⟩, ⟨[], false, none⟩, ⟨[2], false, none⟩,
        ⟨[], false, none⟩]).osType ≠ os_t.VMI_OS_UNKNOWN ∧
    initialSession.endVmi = false ∧
    (∀ c ∈ [(⟨[], false, none⟩ : WaitCall), ⟨[], false, none⟩], c.quiet) ∧
    ((2 : Int) = SIGINT ∨ (2 : Int) = SIGTERM) ∧
    (run (linuxEnvironment [⟨[], false, none⟩, ⟨[], false, none⟩, ⟨[2], false, none⟩,
        ⟨[], false, none⟩]) initialSession).1 = .returned 130 ∧
    waitCalls (run (linuxEnvironment [⟨[], false, none⟩, ⟨[], false, none⟩, ⟨[2], false, none⟩,
        ⟨[], false, none⟩]) initialSession).2.trace = 3 := by
  have hq : ∀ c ∈ [(⟨[], false, none⟩ : WaitCall), ⟨[], false, none⟩], c.quiet := by
    intro c hc
    simp only [List.mem_cons, List.mem_singleton, List.not_mem_nil, or_false, or_self] at hc
    subst hc
    exact ⟨rfl, rfl, rfl⟩
  have h := signal_exit_status.1
    (linuxEnvironment [⟨[], false, none⟩, ⟨[], false, none⟩, ⟨[2], false, none⟩,
      ⟨[], false, none⟩]) initialSession [⟨[], false, none⟩, ⟨[], false, none⟩]
    [⟨[], false, none⟩] ⟨[2], false, none⟩ [] 2 (by decide) rfl rfl rfl rfl hq
    (Or.inl rfl) rfl rfl
  exact ⟨by decide, rfl, hq, Or.inl rfl, h.1, h.2.2⟩

/-- C10 (amended): for every signal number other than SIGINT and SIGTERM,
`externalInterruptHandler` sets the exit status to `128 + signal` and sets the
shutdown flag, as it does for the two supported signals; when the number is
positive the only call it makes is the error log line for an unhandled signal, and
otherwise it makes no call. -/
theorem unsupported_signal_sets_exit_status (signal : Int) (s : Session)
    (h1 : signal ≠ SIGINT) (h2 : signal ≠ SIGTERM) :
    (externalInterruptHandler signal s).exitCode = 128 + signal ∧
    (externalInterruptHandler signal s).endVmi = true ∧
    (0 < signal → (externalInterruptHandler signal s).trace =
      s.trace ++ [.log .error "Called for unhandled signal. This should never occur"]) ∧
    (signal ≤ 0 → (externalInterruptHandler signal s).trace = s.trace) := by
  refine ⟨(externalInterruptHandler_facts signal s).1, rfl, ?_, ?_⟩
  · intro hpos
    simp [externalInterruptHandler, logReceivedSignal, hpos, h1, h2, Session.emit]
  · intro hneg
    have : ¬ signal > 0 := by omega
    simp [externalInterruptHandler, logReceivedSignal, this]

/-- C10, at a concrete input: signal 1 delivered in the initial session. -/
theorem unsupported_signal_sets_exit_status_witness :
    (1 : Int) ≠ SIGINT ∧ (1 : Int) ≠ SIGTERM ∧
    (externalInterruptHandler 1 initialSession).exitCode = 129 ∧
    (externalInterruptHandler 1 initialSession).endVmi = true :=
  ⟨by decide, by decide,
    (unsupported_signal_sets_exit_status 1 initialSession (by decide) (by decide)).1,
    (unsupported_signal_sets_exit_status 1 initialSession (by decide) (by decide)).2.1⟩

/-- C10 as stated fails: signal 1 is neither SIGINT nor SIGTERM, the handler logs
the error line for it, and the exit status, 0 before the handler, is 129 after it. -/
theorem unsupported_signal_changes_exit_status :
    (1 : Int) ≠ SIGINT ∧ (1 : Int) ≠ SIGTERM ∧
    initialSession.exitCode = 0 ∧
    (externalInterruptHandler 1 initialSession).exitCode = 129 ∧
    (externalInterruptHandler 1 initialSession).exitCode ≠ initialSession.exitCode ∧
    (externalInterruptHandler 1 initialSession).trace =
      [.log .error "Called for unhandled signal. This should never occur"] := by
  decide

/-! ## Driver failure in the wait loop -/

theorem run_eq_runFromWaitLoop (env : Environment) (s : Session)
    (hos : env.osType ≠ os_t.VMI_OS_UNKNOWN)
    (h1 : env.sigactionSIGINT = 0) (h2 : env.sigactionSIGTERM = 0) :
    run env s =
      runFromWaitLoop env.script { startupSession env s with postRunPluginAction := true } := by
  cases hosv : env.osType with
  | VMI_OS_UNKNOWN => exact absurd hosv hos
  | VMI_OS_LINUX =>
    simp only [run, hosv, setupSignalHandling, h1, h2, ne_eq, not_true_eq_false, if_false,
      runFromWaitLoop, waitForEvents, startupSession, finishRun]
  | VMI_OS_WINDOWS =>
    simp only [run, hosv, setupSignalHandling, h1, h2, ne_eq, not_true_eq_false, if_false,
      runFromWaitLoop, waitForEvents, startupSession, finishRun]

theorem shutdownNotifications_emit (s : Session) (c : HubCall)
    (h : c ≠ HubCall.passShutdownEventToRegisteredPlugins) :
    shutdownNotifications (s.emit c).trace = shutdownNotifications s.trace := by
  simp [shutdownNotifications, Session.emit, List.count_append, List.count_cons, h]

theorem externalInterruptHandler_shutdownNotifications (signal : Int) (s : Session) :
    shutdownNotifications (externalInterruptHandler signal s).trace
      = shutdownNotifications s.trace := by
  unfold externalInterruptHandler logReceivedSignal
  simp only []
  split_ifs <;>
    simp [shutdownNotifications, Session.emit, List.count_append, List.count_cons]

theorem signals_fold_shutdownNotifications (signals : List Int) (s : Session) :
    shutdownNotifications
        (signals.foldl (fun s signal => externalInterruptHandler signal s) s).trace
      = shutdownNotifications s.trace := by
  induction signals generalizing s with
  | nil => rfl
  | cons x xs ih =>
    simp only [List.foldl_cons]
    exact (ih _).trans (externalInterruptHandler_shutdownNotifications x s)

theorem waitForEventCall_throws (c : WaitCall) (s : Session) (what : String)
    (hthrow : c.throws = some what) :
    (waitForEventCall c s).exitCode = 1 ∧
    (waitForEventCall c s).endVmi = true ∧
    (waitForEventCall c s).postRunPluginAction = s.postRunPluginAction ∧
    waitCalls (waitForEventCall c s).trace = waitCalls s.trace + 1 ∧
    shutdownNotifications (waitForEventCall c s).trace = shutdownNotifications s.trace := by
  have hfold := signals_fold_facts c.signals (s.emit .waitForEvent)
  have hfold2 := signals_fold_shutdownNotifications c.signals (s.emit .waitForEvent)
  have hcount : waitCalls (s.emit .waitForEvent).trace = waitCalls s.trace + 1 := by
    simp [waitCalls, Session.emit, List.count_append]
  have hcount2 : shutdownNotifications (s.emit .waitForEvent).trace
      = shutdownNotifications s.trace := shutdownNotifications_emit s _ (by simp)
  simp only [waitForEventCall, hthrow]
  refine ⟨trivial, trivial, ?_, ?_, ?_⟩
  · split_ifs
    · simpa [Session.emit] using hfold.1
    · simpa [Session.emit] using hfold.1
  · split_ifs <;>
      simpa [waitCalls, Session.emit, List.count_append, List.count_cons] using
        hfold.2.trans hcount
  · split_ifs <;>
      simpa [shutdownNotifications, Session.emit, List.count_append, List.count_cons] using
        hfold2.trans hcount2

theorem finishRun_facts (s : Session) :
    (finishRun s).1 = .returned (s.exitCode % 2 ^ 32).toNat ∧
    waitCalls (finishRun s).2.trace = waitCalls s.trace ∧
    (s.postRunPluginAction = true →
      shutdownNotifications (finishRun s).2.trace = shutdownNotifications s.trace + 1) ∧
    (s.postRunPluginAction = false →
      shutdownNotifications (finishRun s).2.trace = shutdownNotifications s.trace) := by
  refine ⟨?_, ?_, ?_, ?_⟩
  · simp only [finishRun]
    split_ifs <;> simp [performShutdownPluginAction, Session.emit]
  · simp only [finishRun]
    split_ifs <;>
      simp [performShutdownPluginAction, Session.emit, waitCalls, List.count_append,
        List.count_cons]
  · intro h
    simp [finishRun, h, performShutdownPluginAction, Session.emit, shutdownNotifications,
      List.count_append, List.count_cons]
  · intro h
    simp [finishRun, h, Session.emit, shutdownNotifications, List.count_append,
      List.count_cons]

theorem shutdownNotifications_replicate (t : List HubCall) (n : Nat) :
    shutdownNotifications (t ++ List.replicate n HubCall.waitForEvent)
      = shutdownNotifications t := by
  simp [shutdownNotifications, List.count_append, List.count_replicate]

theorem plugins_fold_shutdownNotifications (plugins : List String) (s : Session) :
    shutdownNotifications
        (plugins.foldl (fun s name => s.emit (.initializePlugin name)) s).trace
      = shutdownNotifications s.trace := by
  induction plugins generalizing s with
  | nil => rfl
  | cons x xs ih =>
    simp only [List.foldl_cons]
    exact (ih _).trans (shutdownNotifications_emit s _ (by simp))

theorem startupSession_shutdownNotifications (env : Environment) (s : Session) :
    shutdownNotifications (startupSession env s).trace = shutdownNotifications s.trace := by
  simp only [startupSession]
  rw [shutdownNotifications_emit _ _ (by simp), shutdownNotifications_emit _ _ (by simp),
    shutdownNotifications_emit _ _ (by simp), shutdownNotifications_emit _ _ (by simp),
    shutdownNotifications_emit _ _ (by simp), shutdownNotifications_emit _ _ (by simp),
    plugins_fold_shutdownNotifications, shutdownNotifications_emit _ _ (by simp),
    shutdownNotifications_emit _ _ (by simp)]

theorem runFromWaitLoop_failure (s : Session) (before rest : List WaitCall)
    (failing : WaitCall) (what : String)
    (hrun : s.endVmi = false) (hquiet : ∀ c ∈ before, c.quiet)
    (hthrow : failing.throws = some what) :
    (runFromWaitLoop (before ++ failing :: rest) s).1 = .returned 1 ∧
    waitCalls (runFromWaitLoop (before ++ failing :: rest) s).2.trace
      = waitCalls s.trace + before.length + 1 ∧
    (s.postRunPluginAction = true →
      shutdownNotifications (runFromWaitLoop (before ++ failing :: rest) s).2.trace
        = shutdownNotifications s.trace + 1) ∧
    (s.postRunPluginAction = false →
      shutdownNotifications (runFromWaitLoop (before ++ failing :: rest) s).2.trace
        = shutdownNotifications s.trace) := by
  have hloop := waitLoop_until_final before rest failing s hrun hquiet
    (fun t => (waitForEventCall_throws failing t what hthrow).2.1)
  have hcall := waitForEventCall_throws failing
    { s with trace := s.trace ++ List.replicate before.length HubCall.waitForEvent } what hthrow
  have hfin := finishRun_facts (waitForEventCall failing
    { s with trace := s.trace ++ List.replicate before.length HubCall.waitForEvent })
  simp only [runFromWaitLoop, hloop]
  refine ⟨?_, ?_, ?_, ?_⟩
  · rw [hfin.1, hcall.1]
    rfl
  · rw [hfin.2.1, hcall.2.2.2.1, waitCalls_replicate]
  · intro hflag
    rw [hfin.2.2.1 (hcall.2.2.1.trans hflag), hcall.2.2.2.2, shutdownNotifications_replicate]
  · intro hflag
    rw [hfin.2.2.2 (hcall.2.2.1.trans hflag), hcall.2.2.2.2, shutdownNotifications_replicate]

/-- C11: when the wait loop is entered in any session state with the shutdown flag
clear and, after any number of uneventful `waitForEvent` calls, a call throws, that
call is the last `waitForEvent` call whatever the driver would have done next, the
rest of `run` returns exit status 1, and the shutdown notification is passed to the
plugins (once) if and only if `postRunPluginAction` was set when the loop was
entered, a value no `waitForEvent` call changes. In `run` itself `waitForEvents`
sets that flag before the loop, so there the notification is passed. -/
theorem driver_failure_exit_status :
    (∀ (s : Session) (before rest : List WaitCall) (failing : WaitCall) (what : String),
      s.endVmi = false → (∀ c ∈ before, c.quiet) → failing.throws = some what →
        (runFromWaitLoop (before ++ failing :: rest) s).1 = .returned 1 ∧
        waitCalls (runFromWaitLoop (before ++ failing :: rest) s).2.trace
          = waitCalls s.trace + before.length + 1 ∧
        (shutdownNotifications (runFromWaitLoop (before ++ failing :: rest) s).2.trace
            = shutdownNotifications s.trace + 1 ↔ s.postRunPluginAction = true) ∧
        (shutdownNotifications (runFromWaitLoop (before ++ failing :: rest) s).2.trace
            = shutdownNotifications s.trace ↔ s.postRunPluginAction = false)) ∧
    (∀ (env : Environment) (s0 : Session) (before rest : List WaitCall) (failing : WaitCall)
        (what : String),
      env.osType ≠ os_t.VMI_OS_UNKNOWN → env.sigactionSIGINT = 0 → env.sigactionSIGTERM = 0 →
      s0.endVmi = false →
      env.script = before ++ failing :: rest → (∀ c ∈ before, c.quiet) →
      failing.throws = some what →
        (run env s0).1 = .returned 1 ∧
        waitCalls (run env s0).2.trace = waitCalls s0.trace + before.length + 1 ∧
        shutdownNotifications (run env s0).2.trace = shutdownNotifications s0.trace + 1) := by
  refine ⟨?_, ?_⟩
  · intro s before rest failing what hrun hquiet hthrow
    have h := runFromWaitLoop_failure s before rest failing what hrun hquiet hthrow
    refine ⟨h.1, h.2.1, ⟨?_, h.2.2.1⟩, ⟨?_, h.2.2.2⟩⟩
    · intro hcount
      cases hflag : s.postRunPluginAction with
      | true => rfl
      | false =>
        have := h.2.2.2 hflag
        omega
    · intro hcount
      cases hflag : s.postRunPluginAction with
      | false => rfl
      | true =>
        have := h.2.2.1 hflag
        omega
  · intro env s0 before rest failing what hos h1 h2 hstart hscript hquiet hthrow
    have hst := startupSession_facts env s0
    have hst2 := startupSession_shutdownNotifications env s0
    have h := runFromWaitLoop_failure
      { startupSession env s0 with postRunPluginAction := true } before rest failing what
      (by simpa using hst.1.trans hstart) hquiet hthrow
    rw [run_eq_runFromWaitLoop env s0 hos h1 h2, hscript]
    refine ⟨h.1, ?_, ?_⟩
    · rw [h.2.1]
      simp only []
      rw [hst.2.2]
    · rw [h.2.2.1 rfl]
      simp only []
      rw [hst2]

/-- C11, at a concrete input: a Linux session from the initial state whose second
`waitForEvent` call throws; `run` returns 1 after two calls and one shutdown
notification although the script has a third call. -/
theorem driver_failure_exit_status_witness :
    (linuxEnvironment [⟨[], false, none⟩, ⟨[], false, some "driver"⟩,
        ⟨[], false, none⟩]).osType ≠ os_t.VMI_OS_UNKNOWN ∧
    initialSession.endVmi = false ∧
    (∀ c ∈ [(⟨[], false, none⟩ : WaitCall)], c.quiet) ∧
    (run (linuxEnvironment [⟨[], false, none⟩, ⟨[], false, some "driver"⟩,
        ⟨[], false, none⟩]) initialSession).1 = .returned 1 ∧
    waitCalls (run (linuxEnvironment [⟨[], false, none⟩, ⟨[], false, some "driver"⟩,
        ⟨[], false, none⟩]) initialSession).2.trace = 2 ∧
    shutdownNotifications (run (linuxEnvironment [⟨[], false, none⟩,
        ⟨[], false, some "driver"⟩, ⟨[], false, none⟩]) initialSession).2.trace = 1 := by
  have hq : ∀ c ∈ [(⟨[], false, none⟩ : WaitCall)], c.quiet := by
    intro c hc
    simp only [List.mem_singleton] at hc
    subst hc
    exact ⟨rfl, rfl, rfl⟩
  have h := driver_failure_exit_status.2
    (linuxEnvironment [⟨[], false, none⟩, ⟨[], false, some "driver"⟩, ⟨[], false, none⟩])
    initialSession [⟨[], false, none⟩] [⟨[], false, none⟩] ⟨[], false, some "driver"⟩
    "driver" (by decide) rfl rfl rfl rfl hq rfl
  exact ⟨by decide, rfl, hq, h.1, h.2.1, h.2.2⟩

/-! ## Order of the calls made by `run` -/

theorem externalInterruptHandler_trace (signal : Int) (s : Session) :
    ∃ ext, (externalInterruptHandler signal s).trace = s.trace ++ ext ∧
      HubCall.systemEventSupervisorInitialize ∉ ext := by
  unfold externalInterruptHandler logReceivedSignal
  simp only []
  split_ifs
  · exact ⟨[_], rfl, by simp⟩
  · exact ⟨[_], rfl, by simp⟩
  · exact ⟨[_], rfl, by simp⟩
  · exact ⟨[], by simp, by simp⟩

theorem signals_fold_trace (signals : List Int) (s : Session) :
    ∃ ext, (signals.foldl (fun s signal => externalInterruptHandler signal s) s).trace
        = s.trace ++ ext ∧
      HubCall.systemEventSupervisorInitialize ∉ ext := by
  induction signals generalizing s with
  | nil => exact ⟨[], by simp, by simp⟩
  | cons x xs ih =>
    obtain ⟨e1, h1, n1⟩ := externalInterruptHandler_trace x s
    obtain ⟨e2, h2, n2⟩ := ih (externalInterruptHandler x s)
    refine ⟨e1 ++ e2, ?_, ?_⟩
    · simp only [List.foldl_cons]
      rw [h2, h1, List.append_assoc]
    · simp [n1, n2]

theorem waitForEventCall_trace (c : WaitCall) (s : Session) :
    ∃ ext, (waitForEventCall c s).trace = s.trace ++ ext ∧
      HubCall.systemEventSupervisorInitialize ∉ ext := by
  obtain ⟨e1, h1, n1⟩ := signals_fold_trace c.signals (s.emit .waitForEvent)
  simp only [Session.emit] at h1
  cases hthrow : c.throws with
  | none =>
    refine ⟨HubCall.waitForEvent :: e1, ?_, by simp [n1]⟩
    simp only [waitForEventCall, hthrow]
    split_ifs <;> simp [Session.emit, h1]
  | some what =>
    refine ⟨HubCall.waitForEvent :: e1 ++
      [.log .error ("Error while waiting for events: " ++ what), .sendErrorEvent what,
        .log .info "Trying to get the VM state"], ?_, by simp [n1]⟩
    simp only [waitForEventCall, hthrow]
    split_ifs <;> simp [Session.emit, h1]

theorem waitLoop_trace (script : List WaitCall) (s : Session) :
    ∃ ext, (waitLoop script s).2.trace = s.trace ++ ext ∧
      HubCall.systemEventSupervisorInitialize ∉ ext := by
  induction script generalizing s with
  | nil =>
    refine ⟨[], ?_, by simp⟩
    simp only [waitLoop]
    split_ifs <;> simp
  | cons c cs ih =>
    by_cases hend : s.endVmi = true
    · exact ⟨[], by simp [waitLoop, hend], by simp⟩
    · obtain ⟨e1, h1, n1⟩ := waitForEventCall_trace c s
      obtain ⟨e2, h2, n2⟩ := ih (waitForEventCall c s)
      refine ⟨e1 ++ e2, ?_, by simp [n1, n2]⟩
      simp only [waitLoop, hend, Bool.false_eq_true, if_false]
      rw [h2, h1, List.append_assoc]

theorem finishRun_trace (s : Session) :
    ∃ ext, (finishRun s).2.trace = s.trace ++ ext ∧
      HubCall.systemEventSupervisorInitialize ∉ ext := by
  by_cases h : s.postRunPluginAction = true
  · exact ⟨[.pauseVm, .passShutdownEventToRegisteredPlugins, .resumeVm,
      .systemEventSupervisorTeardown],
      by simp [finishRun, h, performShutdownPluginAction, Session.emit], by simp⟩
  · exact ⟨[.systemEventSupervisorTeardown], by simp [finishRun, h, Session.emit], by simp⟩

theorem runFromWaitLoop_trace (script : List WaitCall) (s : Session) :
    ∃ ext, (runFromWaitLoop script s).2.trace = s.trace ++ ext ∧
      HubCall.systemEventSupervisorInitialize ∉ ext := by
  obtain ⟨e1, h1, n1⟩ := waitLoop_trace script s
  rcases hloop : waitLoop script s with ⟨ending, s1⟩
  rw [hloop] at h1
  cases ending with
  | blocked => exact ⟨e1, by simpa [runFromWaitLoop, hloop] using h1, n1⟩
  | exited =>
    obtain ⟨e2, h2, n2⟩ := finishRun_trace s1
    refine ⟨e1 ++ e2, ?_, by simp [n1, n2]⟩
    simp only [runFromWaitLoop, hloop]
    rw [h2, h1, List.append_assoc]

theorem plugins_fold_trace (plugins : List String) (s : Session) :
    (plugins.foldl (fun s name => s.emit (.initializePlugin name)) s).trace
      = s.trace ++ plugins.map HubCall.initializePlugin := by
  induction plugins generalizing s with
  | nil => simp
  | cons x xs ih =>
    simp only [List.foldl_cons, List.map_cons]
    rw [ih]
    simp [Session.emit]

theorem emit_trace (s : Session) (c : HubCall) : (s.emit c).trace = s.trace ++ [c] := rfl

theorem startupSession_trace (env : Environment) (s : Session) :
    (startupSession env s).trace =
      s.trace ++ ([.initializeVmi, .getOsType] ++ env.plugins.map HubCall.initializePlugin ++
        [.pauseVm, .systemEventSupervisorInitialize, .resumeVm] ++
        [.sendReadyEvent, .sigaction SIGINT, .sigaction SIGTERM]) := by
  simp [startupSession, emit_trace, plugins_fold_trace]

theorem run_trace_sigaction_fails (env : Environment) (s : Session)
    (hos : env.osType ≠ os_t.VMI_OS_UNKNOWN)
    (hfail : ¬ (env.sigactionSIGINT = 0 ∧ env.sigactionSIGTERM = 0)) :
    ∃ post, (run env s).2.trace =
        s.trace ++ ([.initializeVmi, .getOsType] ++ env.plugins.map HubCall.initializePlugin ++
          [.pauseVm, .systemEventSupervisorInitialize, .resumeVm] ++ post) ∧
      HubCall.systemEventSupervisorInitialize ∉ post := by
  by_cases h1 : env.sigactionSIGINT = 0
  · have h2 : ¬ env.sigactionSIGTERM = 0 := fun h => hfail ⟨h1, h⟩
    refine ⟨[.sendReadyEvent, .sigaction SIGINT, .sigaction SIGTERM], ?_, by simp⟩
    cases hosv : env.osType with
    | VMI_OS_UNKNOWN => exact absurd hosv hos
    | VMI_OS_LINUX =>
      simp [run, hosv, setupSignalHandling, h1, h2, emit_trace, plugins_fold_trace]
    | VMI_OS_WINDOWS =>
      simp [run, hosv, setupSignalHandling, h1, h2, emit_trace, plugins_fold_trace]
  · refine ⟨[.sendReadyEvent, .sigaction SIGINT], ?_, by simp⟩
    cases hosv : env.osType with
    | VMI_OS_UNKNOWN => exact absurd hosv hos
    | VMI_OS_LINUX =>
      simp [run, hosv, setupSignalHandling, h1, emit_trace, plugins_fold_trace]
    | VMI_OS_WINDOWS =>
      simp [run, hosv, setupSignalHandling, h1, emit_trace, plugins_fold_trace]

/-- C12: in every execution of `run` for a supported guest OS, whether it returns,
throws in `setupSignalHandling` or blocks in the wait loop, the calls it makes are:
`initializeVmi`, `getOsType` and the plugin initialisations, then `pauseVm`, the
System Event Supervisor's `initialize`, `resumeVm` in direct succession, then the
rest. The part before `pauseVm` holds no call of `initialize`, no readiness signal
and no `waitForEvent` call, and the rest holds no further call of `initialize`: it
is called once, between a `pauseVm` and the next `resumeVm`, and the readiness
signal and all `waitForEvent` calls come after that `resumeVm`. -/
theorem arming_happens_while_paused (env : Environment) (s0 : Session)
    (hos : env.osType ≠ os_t.VMI_OS_UNKNOWN) :
    ∃ post, (run env s0).2.trace =
        s0.trace ++ ([.initializeVmi, .getOsType] ++ env.plugins.map HubCall.initializePlugin ++
          [.pauseVm, .systemEventSupervisorInitialize, .resumeVm] ++ post) ∧
      HubCall.systemEventSupervisorInitialize ∉ post ∧
      HubCall.systemEventSupervisorInitialize ∉
        ([.initializeVmi, .getOsType] ++ env.plugins.map HubCall.initializePlugin) ∧
      HubCall.sendReadyEvent ∉
        ([.initializeVmi, .getOsType] ++ env.plugins.map HubCall.initializePlugin) ∧
      HubCall.waitForEvent ∉
        ([.initializeVmi, .getOsType] ++ env.plugins.map HubCall.initializePlugin) := by
  have hpre : HubCall.systemEventSupervisorInitialize ∉
        ([.initializeVmi, .getOsType] ++ env.plugins.map HubCall.initializePlugin) ∧
      HubCall.sendReadyEvent ∉
        ([.initializeVmi, .getOsType] ++ env.plugins.map HubCall.initializePlugin) ∧
      HubCall.waitForEvent ∉
        ([.initializeVmi, .getOsType] ++ env.plugins.map HubCall.initializePlugin) := by
    simp
  by_cases hsig : env.sigactionSIGINT = 0 ∧ env.sigactionSIGTERM = 0
  · obtain ⟨ext, hext, next⟩ := runFromWaitLoop_trace env.script
      { startupSession env s0 with postRunPluginAction := true }
    refine ⟨[.sendReadyEvent, .sigaction SIGINT, .sigaction SIGTERM] ++ ext, ?_, ?_, hpre⟩
    · rw [run_eq_runFromWaitLoop env s0 hos hsig.1 hsig.2, hext]
      simp only []
      rw [startupSession_trace]
      simp only [List.append_assoc]
    · simp [next]
  · obtain ⟨post, hpost, npost⟩ := run_trace_sigaction_fails env s0 hos hsig
    exact ⟨post, hpost, npost, hpre⟩

/-- C12, at a concrete input: a Linux session from the initial state with one
`waitForEvent` call during which signal 15 arrives. -/
theorem arming_happens_while_paused_witness :
    (linuxEnvironment [⟨[15], false, none⟩]).osType ≠ os_t.VMI_OS_UNKNOWN ∧
    ∃ post, (run (linuxEnvironment [⟨[15], false, none⟩]) initialSession).2.trace =
        initialSession.trace ++ ([.initializeVmi, .getOsType] ++
          (linuxEnvironment [⟨[15], false, none⟩]).plugins.map HubCall.initializePlugin ++
          [.pauseVm, .systemEventSupervisorInitialize, .resumeVm] ++ post) ∧
      HubCall.systemEventSupervisorInitialize ∉ post := by
  obtain ⟨post, h1, h2, _⟩ := arming_happens_while_paused
    (linuxEnvironment [⟨[15], false, none⟩]) initialSession (by decide)
  exact ⟨by decide, post, h1, h2⟩

/-! ## Tearing down the interrupt machinery -/

section Teardown

variable {σ : Type}

theorem teardown_facts (this : EventId) (st : State σ) :
    (teardown this st).heap = st.heap ∧
    (teardown this st).interruptsByPA = st.interruptsByPA ∧
    (teardown this st).mem =
      write8PA st.mem (st.heap this).targetPA (st.heap this).originalValue ∧
    ∃ ext, (teardown this st).trace = st.trace ++ ext ∧
      Effect.pauseVm ∉ ext ∧ Effect.resumeVm ∉ ext := by
  by_cases hg : (st.heap this).hasInterruptGuard = true
  · refine ⟨?_, ?_, ?_, ⟨[.write8PA (st.heap this).targetPA (st.heap this).originalValue,
      .log .debug "Disabled interrupt event", .guardTeardown this], ?_, by simp, by simp⟩⟩ <;>
      simp [teardown, disableEvent, State.emit, hg]
  · refine ⟨?_, ?_, ?_, ⟨[.write8PA (st.heap this).targetPA (st.heap this).originalValue,
      .log .debug "Disabled interrupt event"], ?_, by simp, by simp⟩⟩ <;>
      simp [teardown, disableEvent, State.emit, hg]

theorem teardown_fold_frame (entries : PAMap) (st : State σ) :
    (entries.foldl (fun s entry => teardown entry.2 s) st).heap = st.heap ∧
    (entries.foldl (fun s entry => teardown entry.2 s) st).interruptsByPA
      = st.interruptsByPA ∧
    (∃ ext, (entries.foldl (fun s entry => teardown entry.2 s) st).trace = st.trace ++ ext ∧
      Effect.pauseVm ∉ ext ∧ Effect.resumeVm ∉ ext) ∧
    (∀ x, (∀ entry ∈ entries, (st.heap entry.2).targetPA ≠ x) →
      (entries.foldl (fun s entry => teardown entry.2 s) st).mem x = st.mem x) := by
  induction entries generalizing st with
  | nil => exact ⟨rfl, rfl, ⟨[], by simp, by simp, by simp⟩, fun _ _ => rfl⟩
  | cons hd tl ih =>
    obtain ⟨hheap, htab, hmem, e1, htr1, np1, nr1⟩ := teardown_facts hd.2 st
    obtain ⟨ihheap, ihtab, ⟨e2, htr2, np2, nr2⟩, ihmem⟩ := ih (teardown hd.2 st)
    simp only [List.foldl_cons]
    refine ⟨ihheap.trans hheap, ihtab.trans htab, ⟨e1 ++ e2, ?_, by simp [np1, np2],
      by simp [nr1, nr2]⟩, ?_⟩
    · rw [htr2, htr1, List.append_assoc]
    · intro x hx
      rw [ihmem x (fun entry hentry => by
        rw [hheap]; exact hx entry (List.mem_cons_of_mem _ hentry)), hmem]
      exact write8PA_other _ _ _ _ (fun h => hx hd (List.mem_cons_self _ _) h.symm)

theorem teardown_fold_restores (entries : PAMap) (st : State σ)
    (hkeys : (PAMap.keys entries).Nodup)
    (htarget : ∀ entry ∈ entries, (st.heap entry.2).targetPA = entry.1) :
    ∀ entry ∈ entries,
      (entries.foldl (fun s entry => teardown entry.2 s) st).mem entry.1
        = (st.heap entry.2).originalValue % 256 := by
  induction entries generalizing st with
  | nil => intro entry hentry; cases hentry
  | cons hd tl ih =>
    obtain ⟨hheap, htab, hmem, _⟩ := teardown_facts hd.2 st
    have hnodup : hd.1 ∉ PAMap.keys tl ∧ (PAMap.keys tl).Nodup := by
      simpa [PAMap.keys] using hkeys
    have htl : ∀ entry ∈ tl, ((teardown hd.2 st).heap entry.2).targetPA = entry.1 := by
      intro entry hentry
      rw [hheap]
      exact htarget entry (List.mem_cons_of_mem _ hentry)
    intro entry hentry
    simp only [List.foldl_cons]
    rcases List.mem_cons.mp hentry with h | h
    · subst h
      rw [(teardown_fold_frame tl (teardown entry.2 st)).2.2.2 entry.1 (fun e he hx => by
        apply hnodup.1
        rw [← hx, htl e he]
        exact List.mem_map_of_mem Prod.fst he), hmem, htarget entry (List.mem_cons_self _ _)]
      simp [write8PA]
    · rw [ih (teardown hd.2 st) hnodup.2 htl entry h, hheap]

theorem clearPrologue_facts (st : State σ) :
    clearInterruptEventHandling st =
      ((({ (st.interruptsByPA.foldl (fun s entry => teardown entry.2 s) (clearPrologue st)) with
        interruptsByPA := [] } : State σ).emit .clearEvent).emit .resumeVm) ∧
    (clearPrologue st).heap = st.heap ∧ (clearPrologue st).mem = st.mem ∧
    ∃ e0, (clearPrologue st).trace = st.trace ++ [.pauseVm] ++ e0 ∧
      Effect.pauseVm ∉ e0 ∧ Effect.resumeVm ∉ e0 := by
  by_cases hp : st.eventsPending = true
  · refine ⟨?_, ?_, ?_, [.areEventsPending,
      .log .warning "Pending events during interrupt event destruction"], ?_, by simp, by simp⟩ <;>
      simp [clearInterruptEventHandling, clearPrologue, State.emit, hp]
  · refine ⟨?_, ?_, ?_, [.areEventsPending], ?_, by simp, by simp⟩ <;>
      simp [clearInterruptEventHandling, clearPrologue, State.emit, hp]

/-- C13: for a dispatch table with distinct keys in which every entry at key `a`
refers to an event whose target is `a` and whose saved original value is a byte
`b`, whatever guest memory and the single-step registry hold: after
`clearInterruptEventHandling` the dispatch table is empty, every previously
registered address `a` reads as its `b`, every address that was not registered
holds what it held before, and the calls made are `pauseVm` first and `resumeVm`
last with no other `pauseVm` or `resumeVm` between them, so every write lies
between the two. -/
theorem teardown_restores_all (st : State σ) (hwf : PAMap.WF st.interruptsByPA)
    (htarget : ∀ entry ∈ st.interruptsByPA, (st.heap entry.2).targetPA = entry.1)
    (hbyte : ∀ entry ∈ st.interruptsByPA, (st.heap entry.2).originalValue < 256) :
    (clearInterruptEventHandling st).interruptsByPA = [] ∧
    (∀ entry ∈ st.interruptsByPA,
      read8PA (clearInterruptEventHandling st).mem entry.1
        = (st.heap entry.2).originalValue) ∧
    (∀ x, x ∉ PAMap.keys st.interruptsByPA →
      (clearInterruptEventHandling st).mem x = st.mem x) ∧
    ∃ mid, (clearInterruptEventHandling st).trace =
        st.trace ++ [.pauseVm] ++ mid ++ [.resumeVm] ∧
      Effect.pauseVm ∉ mid ∧ Effect.resumeVm ∉ mid := by
  obtain ⟨hs1, hheap1, hmem1, e0, htr1, np0, nr0⟩ := clearPrologue_facts st
  generalize clearPrologue st = s1 at hs1 hheap1 hmem1 htr1
  obtain ⟨fheap, ftab, ⟨e1, htr2, np1, nr1⟩, fmem⟩ := teardown_fold_frame st.interruptsByPA s1
  have hrest := teardown_fold_restores st.interruptsByPA s1 (PAMap.WF_nodup _ hwf)
    (fun entry hentry => by rw [hheap1]; exact htarget entry hentry)
  rw [hs1]
  refine ⟨rfl, ?_, ?_, ⟨e0 ++ e1 ++ [.clearEvent], ?_, by simp [np0, np1], by simp [nr0, nr1]⟩⟩
  · intro entry hentry
    have h := hrest entry hentry
    simp only [State.emit, read8PA]
    rw [h, hheap1, Nat.mod_mod]
    exact Nat.mod_eq_of_lt (hbyte entry hentry)
  · intro x hx
    simp only [State.emit]
    rw [fmem x (fun entry hentry h => hx (by
      rw [hheap1, htarget entry hentry] at h
      rw [← h]
      exact List.mem_map_of_mem Prod.fst hentry)), hmem1]
  · simp only [State.emit]
    rw [htr2, htr1]
    simp only [List.append_assoc]

/-- C13, at a concrete input: the armed example session, one event registered at
0x1000 with saved byte 0x55 and the breakpoint in memory. -/
theorem teardown_restores_all_witness :
    PAMap.WF (armedState (constCallback .Continue)).interruptsByPA ∧
    (∀ entry ∈ (armedState (constCallback .Continue)).interruptsByPA,
      ((armedState (constCallback .Continue)).heap entry.2).targetPA = entry.1) ∧
    (∀ entry ∈ (armedState (constCallback .Continue)).interruptsByPA,
      ((armedState (constCallback .Continue)).heap entry.2).originalValue < 256) ∧
    read8PA (armedState (constCallback .Continue)).mem 0x1000 = 0xCC ∧
    read8PA (clearInterruptEventHandling (armedState (constCallback .Continue))).mem 0x1000
      = 0x55 ∧
    (clearInterruptEventHandling (armedState (constCallback .Continue))).interruptsByPA = [] := by
  have hf := armedState_facts (constCallback .Continue)
  have hwf : PAMap.WF (armedState (constCallback .Continue)).interruptsByPA := by
    rw [hf.1]; simp [PAMap.WF, PAMap.keys]
  have ht : ∀ entry ∈ (armedState (constCallback .Continue)).interruptsByPA,
      ((armedState (constCallback .Continue)).heap entry.2).targetPA = entry.1 := by
    intro entry hentry
    rw [hf.1] at hentry
    simp only [List.mem_singleton] at hentry
    subst hentry
    exact hf.2.2.1
  have hb : ∀ entry ∈ (armedState (constCallback .Continue)).interruptsByPA,
      ((armedState (constCallback .Continue)).heap entry.2).originalValue < 256 := by
    intro entry hentry
    rw [hf.1] at hentry
    simp only [List.mem_singleton] at hentry
    subst hentry
    rw [hf.2.2.2.1]
    decide
  have h := teardown_restores_all (armedState (constCallback .Continue)) hwf ht hb
  have hmemb : ((0x1000 : addr_t), (0 : EventId)) ∈
      (armedState (constCallback .Continue)).interruptsByPA := by
    rw [hf.1]; simp
  refine ⟨hwf, ht, hb, ?_, ?_, h.1⟩
  · rw [hf.2.1]; simp [read8PA, write8PA]
  · have := h.2.1 _ hmemb
    rw [hf.2.2.2.1] at this
    exact this

end Teardown

/-! ## Destroying an Interrupt Event -/

theorem PAMap.find_erase (m : PAMap) (a b : addr_t) :
    (m.erase a).find b = if b = a then none else m.find b := by
  induction m with
  | nil => simp [PAMap.erase, PAMap.find]
  | cons kv rest ih =>
    obtain ⟨k, v⟩ := kv
    simp only [PAMap.erase, ne_eq, decide_not] at ih
    by_cases hk : k = a
    · subst hk
      by_cases hb : b = k
      · simpa [PAMap.erase, PAMap.find, hb] using ih
      · simpa [PAMap.erase, PAMap.find, hb] using ih
    · by_cases hb : b = k
      · subst hb
        simp [PAMap.erase, PAMap.find, hk]
      · simpa [PAMap.erase, PAMap.find, hk, hb] using ih

theorem waitingState_facts :
    waitingState.interruptsByPA = [(0x1000, 0)] ∧
    read8PA waitingState.mem 0x1000 = 0x55 ∧
    waitingState.singleStepCallbacks 3 = some 0 ∧
    (waitingState.heap 1).targetPA = 0x1000 := by
  have hf := armedState_facts (constCallback .Continue)
  have h2 : (armedState (constCallback .Continue)).interruptsByPA.find
      (eventPA x86Constants (trapAt0x1000 3 0)) = some 0 := by
    rw [eventPA_trapAt0x1000, hf.1]; simp [PAMap.find]
  have h5 : ((armedState (constCallback .Continue)).heap 0).callbackFunction
      (trapAt0x1000 3 0).x86_regs (armedState (constCallback .Continue)).mem
      (armedState (constCallback .Continue)).user
      = (.ok .Continue, (armedState (constCallback .Continue)).mem, ()) := by
    rw [hf.2.2.2.2.1]; rfl
  have hstate : waitingState = setSingleStepCallback 3 0
      (disableEvent 0 { trapPrologue 0 (armedState (constCallback .Continue)) with
        mem := (armedState (constCallback .Continue)).mem, user := () }) :=
    defaultInterruptCallback_continue x86Constants (trapAt0x1000 3 0)
      (armedState (constCallback .Continue)) 0 _ () h2 h5
  have hheap1 : ((armedState (constCallback .Continue)).heap 1).targetPA = 0x1000 := by
    simp [armedState, freshState, initializeInterruptEvent, storeOriginalValue,
      setupVmiInterruptEvent, enableEvent, State.emit, State.setObject, newEvent, read8PA,
      x86Constants, PAMap.find, PAMap.insert]
  rw [hstate]
  refine ⟨?_, ?_, ?_, ?_⟩
  · simp [setSingleStepCallback, disableEvent, trapPrologue, State.emit, hf.1]
  · simp [setSingleStepCallback, disableEvent, trapPrologue, State.emit, read8PA, write8PA,
      hf.2.2.1, hf.2.2.2.1]
  · simp [setSingleStepCallback]
  · simpa [setSingleStepCallback, disableEvent, trapPrologue, State.emit] using hheap1

/-- C14 fails on the code at this input: event object 0 is registered at 0x1000
and waits for its single-step callback (0x1000 reads 0x55); `initialize` of a second
object 1 with the same target throws "Interrupt already registered at this
address", leaving the table as it was; the destructor of object 1 then erases key
0x1000, so the entry that refers to object 0 is gone and the table is empty. -/
theorem destructor_erases_other_event :
    waitingState.interruptsByPA.find 0x1000 = some 0 ∧
    (initializeInterruptEvent x86Constants 1 waitingState).1 =
      .error ⟨"setupVmiInterruptEvent: Interrupt already registered at this address: " ++
        formatHex 0x1000⟩ ∧
    (initializeInterruptEvent x86Constants 1 waitingState).2.interruptsByPA = [(0x1000, 0)] ∧
    (destroyInterruptEvent 1
      (initializeInterruptEvent x86Constants 1 waitingState).2).interruptsByPA = [] ∧
    (destroyInterruptEvent 1
      (initializeInterruptEvent x86Constants 1 waitingState).2).interruptsByPA.find 0x1000
        = none := by
  obtain ⟨htab, hread, _, htarget⟩ := waitingState_facts
  have hbp : read8PA waitingState.mem (waitingState.heap 1).targetPA
      ≠ x86Constants.INT3_BREAKPOINT := by
    rw [htarget, hread]; decide
  have hocc : (waitingState.interruptsByPA.find (waitingState.heap 1).targetPA).isSome
      = true := by
    rw [htarget, htab]; simp [PAMap.find]
  have hinit := initialize_address_occupied x86Constants 1 waitingState hbp hocc
  have hobj := armStored_object 1 waitingState
  have hstab : (armStored 1 waitingState).interruptsByPA = [(0x1000, 0)] := by
    simp [armStored, armPrologue, State.emit, State.setObject, htab]
  rw [hinit]
  refine ⟨?_, ?_, hstab, ?_, ?_⟩
  · rw [htab]; simp [PAMap.find]
  · simp only [htarget]
  · simp [destroyInterruptEvent, hobj.1, htarget, hstab, PAMap.erase]
  · simp [destroyInterruptEvent, hobj.1, htarget, hstab, PAMap.erase, PAMap.find]

end SmartVmi
